import Mathlib

/-!
Verification development for the kharge expense-ledger program (src/kharge.py).

The program is a small single-file expense ledger: a calendar converter
between Jalali and Gregorian dates (delegating to the jdatetime library,
which implements the classical jalali.c day-number algorithm), a flat-file
ledger store, a record builder for manual entry and CSV import, and a
query engine (date-range / card / description filters, sort, aggregation).

Conventions of the embedding:
* Python integers are Lean Int; Python floor division and modulus
  (with positive divisors, the only case the program exercises) are
  Int.ediv and Int.emod, which agree with Python on all inputs.
* Pandas / numpy float values carried by the table are modelled as Rat;
  the NaN produced by pd.to_numeric(errors=coerce) is modelled as the
  none case of Option Rat.
* Fallible Python code (raising exceptions) is modelled with Option or
  Except.
-/

namespace Kharge

/-! ## Calendar converter (jdatetime jalali.py, the jalali.c algorithm)

The source functions jalali_to_gregorian and gregorian_to_jalali
(src/kharge.py lines 36-50) delegate to jdatetime.date.fromisoformat,
jdatetime.date.togregorian and jdatetime.date.fromgregorian.  jdatetime
implements conversion with the classical day-number algorithm of
jalali.c (tables g_days_in_month, j_days_in_month; epochs 1600 CE and
979 AP; cycle constants 146097, 36524, 12053, 1461). -/

def g_days_in_month : List Int := [31, 28, 31, 30, 31, 30, 31, 31, 30, 31, 30, 31]

def j_days_in_month : List Int := [31, 31, 31, 31, 31, 31, 30, 30, 30, 30, 30, 29]

/-- Days-in-month table of a Gregorian leap year (the month scan of the
jalali.c decoder adds one exactly to February when its leap flag is set;
using the adjusted table is the same computation). -/
def g_days_in_month_leap : List Int := [31, 29, 31, 30, 31, 30, 31, 31, 30, 31, 30, 31]

/-- Sum of the first k month-table entries: the `for i in range(k)` loops
of jalali.py that accumulate month lengths (Python range clamps negative
arguments to the empty range, as does Int.toNat). -/
def sumTakeI (l : List Int) (k : Int) : Int := (l.take k.toNat).sum

/-- The month scan of the jalali.py decoders: walk the table, subtracting
whole months while the remaining day count is not below the entry;
returns the resulting 1-based month and the remaining day offset. -/
def monthLoop : List Int → Int → Int → Int × Int
  | [], m, n => (m, n)
  | dm :: rest, m, n => if n < dm then (m, n) else monthLoop rest (m + 1) (n - dm)

/-- jdatetime.date.isleap: year % 33 in (1, 5, 9, 13, 17, 22, 26, 30). -/
def jalaliLeap (y : Int) : Prop :=
  y % 33 = 1 ∨ y % 33 = 5 ∨ y % 33 = 9 ∨ y % 33 = 13 ∨
  y % 33 = 17 ∨ y % 33 = 22 ∨ y % 33 = 26 ∨ y % 33 = 30

instance (y : Int) : Decidable (jalaliLeap y) := by unfold jalaliLeap; infer_instance

/-- Day count of Jalali month m in year y, as checked by the
jdatetime.date constructor (Esfand has 30 days in leap years). -/
def jMonthDays (y m : Int) : Int :=
  if m = 12 ∧ jalaliLeap y then 30 else j_days_in_month.getD (m - 1).toNat 0

/-- Validity of a Jalali date triple as enforced by the jdatetime.date
constructor: MINYEAR = 1, MAXYEAR = 9377, month in 1..12, day in range
for the month (with the Esfand-30 leap exception). -/
def jalaliValid (y m d : Int) : Prop :=
  1 ≤ y ∧ y ≤ 9377 ∧ 1 ≤ m ∧ m ≤ 12 ∧ 1 ≤ d ∧ d ≤ jMonthDays y m

instance (y m d : Int) : Decidable (jalaliValid y m d) := by
  unfold jalaliValid; infer_instance

/-- Python calendar leap rule, as used by datetime.date. -/
def gregLeap (y : Int) : Prop :=
  (y % 4 = 0 ∧ y % 100 ≠ 0) ∨ y % 400 = 0

instance (y : Int) : Decidable (gregLeap y) := by unfold gregLeap; infer_instance

/-- Day count of Gregorian month m in year y (datetime.date validation). -/
def gMonthDays (y m : Int) : Int :=
  if m = 2 ∧ gregLeap y then 29 else g_days_in_month.getD (m - 1).toNat 0

/-- Validity of a Gregorian date triple as enforced by datetime.date
(year in 1..9999, month in 1..12, day in range for the month). -/
def gregValid (y m d : Int) : Prop :=
  1 ≤ y ∧ y ≤ 9999 ∧ 1 ≤ m ∧ m ≤ 12 ∧ 1 ≤ d ∧ d ≤ gMonthDays y m

instance (y m d : Int) : Decidable (gregValid y m d) := by
  unfold gregValid; infer_instance

/-- First half of jdatetime JalaliToGregorian: the epoch-relative Jalali
day number of a date (j_day_no in jalali.py). -/
def jDayNo (jy jm jd : Int) : Int :=
  let jy' := jy - 979
  365 * jy' + (jy' / 33) * 8 + ((jy' % 33) + 3) / 4
    + sumTakeI j_days_in_month (jm - 1) + (jd - 1)

/-- Second half of jdatetime JalaliToGregorian: decode a Gregorian day
number (g_day_no = j_day_no + 79 in jalali.py) to a Gregorian triple. -/
def gregFromDayNo (g_day_no : Int) : Int × Int × Int :=
  let gy0 := 1600 + 400 * (g_day_no / 146097)
  let r0 := g_day_no % 146097
  let p1 :=
    if 36525 ≤ r0 then
      let r := r0 - 1
      let gy := gy0 + 100 * (r / 36524)
      let r' := r % 36524
      if 365 ≤ r' then (gy, r' + 1, true) else (gy, r', false)
    else (gy0, r0, true)
  let gy1 := p1.1
  let r1 := p1.2.1
  let leap0 := p1.2.2
  let gy2 := gy1 + 4 * (r1 / 1461)
  let r2 := r1 % 1461
  let p2 :=
    if 366 ≤ r2 then (gy2 + (r2 - 1) / 365, (r2 - 1) % 365, false)
    else (gy2, r2, leap0)
  let tbl := if p2.2.2 then g_days_in_month_leap else g_days_in_month
  let md := monthLoop tbl 1 p2.2.1
  (p2.1, md.1, md.2 + 1)

/-- First half of jdatetime GregorianToJalali: the epoch-relative
Gregorian day number of a date (g_day_no in jalali.py). -/
def gDayNo (gy gm gd : Int) : Int :=
  let gy' := gy - 1600
  365 * gy' + (gy' + 3) / 4 - (gy' + 99) / 100 + (gy' + 399) / 400
    + sumTakeI g_days_in_month (gm - 1)
    + (if 1 < gm - 1 ∧ ((gy' % 4 = 0 ∧ gy' % 100 ≠ 0) ∨ gy' % 400 = 0)
       then 1 else 0)
    + (gd - 1)

/-- Second half of jdatetime GregorianToJalali: decode a Jalali day
number (j_day_no = g_day_no - 79 in jalali.py) to a Jalali triple. -/
def jalaliFromDayNo (j_day_no : Int) : Int × Int × Int :=
  let j_np := j_day_no / 12053
  let n1 := j_day_no % 12053
  let jy1 := 979 + 33 * j_np + 4 * (n1 / 1461)
  let n2 := n1 % 1461
  let p :=
    if 366 ≤ n2 then (jy1 + (n2 - 1) / 365, (n2 - 1) % 365)
    else (jy1, n2)
  let md := monthLoop (j_days_in_month.take 11) 1 p.2
  (p.1, md.1, md.2 + 1)

section MonthScan

theorem monthLoop_nil (m n : Int) : monthLoop [] m n = (m, n) := rfl

theorem monthLoop_cons (dm : Int) (rest : List Int) (m n : Int) :
    monthLoop (dm :: rest) m n = if n < dm then (m, n) else monthLoop rest (m + 1) (n - dm) := rfl

theorem sumTakeI_zero (l : List Int) : sumTakeI l 0 = 0 := rfl

theorem sumTakeI_cons (d : Int) (l : List Int) (k : Int) (hk : 1 ≤ k) :
    sumTakeI (d :: l) k = d + sumTakeI l (k - 1) := by
  unfold sumTakeI
  have h : k.toNat = (k - 1).toNat + 1 := by omega
  rw [h, List.take_succ_cons, List.sum_cons]

theorem getD_cons_pos (d : Int) (l : List Int) (k : Int) (hk : 1 ≤ k) :
    (d :: l).getD k.toNat 0 = l.getD (k - 1).toNat 0 := by
  have h : k.toNat = (k - 1).toNat + 1 := by omega
  rw [h, List.getD_cons_succ]

/-- Full specification of the month scan: it stops at the first table
entry exceeding the remaining count (or just past the table), the
prefix sum of the skipped entries plus the remainder reconstructs the
input, and the remainder is below the entry of the month it stopped at. -/
theorem monthLoop_spec (tbl : List Int) (m0 n : Int)
    (hpos : ∀ x ∈ tbl, 0 < x) (h0 : 0 ≤ n) :
    m0 ≤ (monthLoop tbl m0 n).1 ∧
    (monthLoop tbl m0 n).1 - m0 ≤ tbl.length ∧
    0 ≤ (monthLoop tbl m0 n).2 ∧
    sumTakeI tbl ((monthLoop tbl m0 n).1 - m0) + (monthLoop tbl m0 n).2 = n ∧
    ((monthLoop tbl m0 n).1 - m0 < tbl.length →
      (monthLoop tbl m0 n).2 < tbl.getD ((monthLoop tbl m0 n).1 - m0).toNat 0) := by
  induction tbl generalizing m0 n with
  | nil =>
    simp only [monthLoop_nil, List.length_nil, sub_self, sumTakeI_zero]
    omega
  | cons dm rest ih =>
    rw [monthLoop_cons]
    by_cases h : n < dm
    · rw [if_pos h]
      simp only [List.length_cons, sub_self, sumTakeI_zero]
      refine ⟨le_refl _, by omega, h0, by omega, fun _ => ?_⟩
      simpa using h
    · rw [if_neg h]
      have hd : 0 < dm := hpos dm (List.mem_cons_self dm rest)
      obtain ⟨i1, i2, i3, i4, i5⟩ :=
        ih (m0 + 1) (n - dm) (fun x hx => hpos x (List.mem_cons_of_mem _ hx)) (by omega)
      set p := monthLoop rest (m0 + 1) (n - dm) with hp
      have hk : 1 ≤ p.1 - m0 := by omega
      refine ⟨by omega, by simp only [List.length_cons]; omega, i3, ?_, ?_⟩
      · have hsum := sumTakeI_cons dm rest (p.1 - m0) hk
        rw [show p.1 - m0 - 1 = p.1 - (m0 + 1) by ring] at hsum
        omega
      · intro hlt
        rw [getD_cons_pos dm rest _ hk]
        simp only [List.length_cons] at hlt
        have := i5 (by omega)
        rw [show p.1 - m0 - 1 = p.1 - (m0 + 1) by ring]
        exact this

theorem sumTakeI_full (l : List Int) : sumTakeI l (l.length : Int) = l.sum := by
  unfold sumTakeI
  rw [Int.toNat_ofNat, List.take_length]

end MonthScan

section CalendarBridges

/-- The leap-year Gregorian table differs from the base table by one
extra day in February. -/
theorem sumTakeI_leap_eq (k : Int) (h0 : 0 ≤ k) (h1 : k ≤ 12) :
    sumTakeI g_days_in_month_leap k =
      sumTakeI g_days_in_month k + (if 1 < k then 1 else 0) := by
  interval_cases k <;> simp [sumTakeI, g_days_in_month, g_days_in_month_leap]

theorem gMonthDays_eq_table (y m : Int) (h1 : 1 ≤ m) (h2 : m ≤ 12) :
    gMonthDays y m =
      (if gregLeap y then g_days_in_month_leap else g_days_in_month).getD (m - 1).toNat 0 := by
  by_cases hL : gregLeap y <;>
    interval_cases m <;>
      simp [gMonthDays, hL, g_days_in_month, g_days_in_month_leap]

theorem g_pos : ∀ x ∈ g_days_in_month, (0:Int) < x := by decide

theorem g_pos_leap : ∀ x ∈ g_days_in_month_leap, (0:Int) < x := by decide

theorem g_sum : g_days_in_month.sum = 365 := by decide

theorem g_sum_leap : g_days_in_month_leap.sum = 366 := by decide

end CalendarBridges

section GregorianInverse

/-- Reconstruction helper for the Gregorian decoder, common-year case:
once the year part has been decoded, the month scan output together with
the year-start prefix of the encoder reconstructs the day number, and
the decoded month/day are valid. -/
theorem gDayNo_reconstruct_common (n gy gm gd doy : Int)
    (hdoy0 : 0 ≤ doy) (hdoyU : doy < 365)
    (hnl : ¬ gregLeap gy)
    (hm1 : (monthLoop g_days_in_month 1 doy).1 = gm)
    (hd1 : (monthLoop g_days_in_month 1 doy).2 + 1 = gd)
    (hsum : 365 * (gy - 1600) + (gy - 1600 + 3) / 4 - (gy - 1600 + 99) / 100
        + (gy - 1600 + 399) / 400 + doy = n) :
    gDayNo gy gm gd = n ∧ 1 ≤ gm ∧ gm ≤ 12 ∧ 1 ≤ gd ∧ gd ≤ gMonthDays gy gm ∧
    gDayNo gy 1 1 ≤ n ∧ n < gDayNo gy 1 1 + 366 := by
  have hstart : gDayNo gy 1 1 = 365 * (gy - 1600) + (gy - 1600 + 3) / 4
      - (gy - 1600 + 99) / 100 + (gy - 1600 + 399) / 400 := by
    simp [gDayNo, sumTakeI_zero]
  obtain ⟨s1, s2, s3, s4, s5⟩ := monthLoop_spec g_days_in_month 1 doy g_pos hdoy0
  have hlen : (g_days_in_month.length : Int) = 12 := by decide
  rw [hlen] at s2 s5
  have hfull : sumTakeI g_days_in_month ((12 : Nat) : Int) = 365 := by decide
  have hin : (monthLoop g_days_in_month 1 doy).1 - 1 < 12 := by
    rcases lt_or_eq_of_le s2 with h | h
    · exact h
    · exfalso
      rw [show (monthLoop g_days_in_month 1 doy).1 - 1 = ((12 : Nat) : Int) by omega] at s4
      rw [hfull] at s4
      omega
  have hgetd := s5 hin
  have hml : gMonthDays gy ((monthLoop g_days_in_month 1 doy).1) =
      g_days_in_month.getD ((monthLoop g_days_in_month 1 doy).1 - 1).toNat 0 := by
    rw [gMonthDays_eq_table gy _ (by omega) (by omega), if_neg hnl]
  have hcond : ¬ (1 < gm - 1 ∧
      (((gy - 1600) % 4 = 0 ∧ (gy - 1600) % 100 ≠ 0) ∨ (gy - 1600) % 400 = 0)) := by
    unfold gregLeap at hnl
    omega
  have henc : gDayNo gy gm gd = 365 * (gy - 1600) + (gy - 1600 + 3) / 4
      - (gy - 1600 + 99) / 100 + (gy - 1600 + 399) / 400
      + sumTakeI g_days_in_month (gm - 1) + (gd - 1) := by
    simp only [gDayNo, if_neg hcond]
    ring
  rw [← hm1, ← hd1] at henc ⊢
  rw [henc, hstart]
  omega

/-- Reconstruction helper for the Gregorian decoder, leap-year case. -/
theorem gDayNo_reconstruct_leap (n gy gm gd doy : Int)
    (hdoy0 : 0 ≤ doy) (hdoyU : doy < 366)
    (hyl : gregLeap gy)
    (hm1 : (monthLoop g_days_in_month_leap 1 doy).1 = gm)
    (hd1 : (monthLoop g_days_in_month_leap 1 doy).2 + 1 = gd)
    (hsum : 365 * (gy - 1600) + (gy - 1600 + 3) / 4 - (gy - 1600 + 99) / 100
        + (gy - 1600 + 399) / 400 + doy = n) :
    gDayNo gy gm gd = n ∧ 1 ≤ gm ∧ gm ≤ 12 ∧ 1 ≤ gd ∧ gd ≤ gMonthDays gy gm ∧
    gDayNo gy 1 1 ≤ n ∧ n < gDayNo gy 1 1 + 366 := by
  have hstart : gDayNo gy 1 1 = 365 * (gy - 1600) + (gy - 1600 + 3) / 4
      - (gy - 1600 + 99) / 100 + (gy - 1600 + 399) / 400 := by
    simp [gDayNo, sumTakeI_zero]
  obtain ⟨s1, s2, s3, s4, s5⟩ := monthLoop_spec g_days_in_month_leap 1 doy g_pos_leap hdoy0
  have hlen : (g_days_in_month_leap.length : Int) = 12 := by decide
  rw [hlen] at s2 s5
  have hfull : sumTakeI g_days_in_month_leap ((12 : Nat) : Int) = 366 := by decide
  have hin : (monthLoop g_days_in_month_leap 1 doy).1 - 1 < 12 := by
    rcases lt_or_eq_of_le s2 with h | h
    · exact h
    · exfalso
      rw [show (monthLoop g_days_in_month_leap 1 doy).1 - 1 = ((12 : Nat) : Int) by omega] at s4
      rw [hfull] at s4
      omega
  have hgetd := s5 hin
  have hml : gMonthDays gy ((monthLoop g_days_in_month_leap 1 doy).1) =
      g_days_in_month_leap.getD ((monthLoop g_days_in_month_leap 1 doy).1 - 1).toNat 0 := by
    rw [gMonthDays_eq_table gy _ (by omega) (by omega), if_pos hyl]
  have hsplit := sumTakeI_leap_eq ((monthLoop g_days_in_month_leap 1 doy).1 - 1)
    (by omega) (by omega)
  have hcond2 : ((gy - 1600) % 4 = 0 ∧ (gy - 1600) % 100 ≠ 0) ∨
      (gy - 1600) % 400 = 0 := by
    unfold gregLeap at hyl
    omega
  have henc : gDayNo gy gm gd = 365 * (gy - 1600) + (gy - 1600 + 3) / 4
      - (gy - 1600 + 99) / 100 + (gy - 1600 + 399) / 400
      + sumTakeI g_days_in_month (gm - 1)
      + (if 1 < gm - 1 then 1 else 0) + (gd - 1) := by
    simp only [gDayNo, hcond2, and_true]
    try ring
  rw [← hm1, ← hd1] at henc ⊢
  rw [henc, hstart]
  by_cases hgm : 1 < (monthLoop g_days_in_month_leap 1 doy).1 - 1
  · rw [if_pos hgm] at henc ⊢
    omega
  · rw [if_neg hgm] at henc ⊢
    omega

set_option maxHeartbeats 3200000 in
/-- The Gregorian day-number decoder of jalali.py is an exact right
inverse of the Gregorian day-number encoder on every integer day number;
the decoded triple is a valid month/day of its year, and the day number
lies within the decoded year. -/
theorem gregFromDayNo_inv (n : Int) :
    gDayNo (gregFromDayNo n).1 (gregFromDayNo n).2.1 (gregFromDayNo n).2.2 = n ∧
    1 ≤ (gregFromDayNo n).2.1 ∧ (gregFromDayNo n).2.1 ≤ 12 ∧
    1 ≤ (gregFromDayNo n).2.2 ∧
    (gregFromDayNo n).2.2 ≤ gMonthDays (gregFromDayNo n).1 (gregFromDayNo n).2.1 ∧
    gDayNo (gregFromDayNo n).1 1 1 ≤ n ∧ n < gDayNo (gregFromDayNo n).1 1 1 + 366 := by
  rcases hg : gregFromDayNo n with ⟨gy, gm, gd⟩
  simp only [gregFromDayNo] at hg
  split_ifs at hg with h1 h2 h3 h4 h5 h6
  all_goals dsimp only at *
  all_goals simp only [Prod.mk.injEq] at hg
  all_goals (try (exfalso; exact (by assumption : ¬ (true = true)) rfl))
  all_goals obtain ⟨hy, hm, hd⟩ := hg
  all_goals set q := n / 146097 with hqdef
  all_goals set r0 := n % 146097 with hr0def
  all_goals (have hq : n = 146097 * q + r0 ∧ 0 ≤ r0 ∧ r0 < 146097 := by omega)
  -- century path, leap-aligned block, year 1..3 of the block (common year)
  · set c := (r0 - 1) / 36524 with hcdef
    set r' := (r0 - 1) % 36524 with hr'def
    have hc : r0 - 1 = 36524 * c + r' ∧ 0 ≤ r' ∧ r' < 36524 := by omega
    set b := (r' + 1) / 1461 with hbdef
    set r2 := (r' + 1) % 1461 with hr2def
    have hb : r' + 1 = 1461 * b + r2 ∧ 0 ≤ r2 ∧ r2 < 1461 := by omega
    set e := (r2 - 1) / 365 with hedef
    set doy := (r2 - 1) % 365 with hdoydef
    have he : r2 - 1 = 365 * e + doy ∧ 0 ≤ doy ∧ doy < 365 := by omega
    have hcb : 1 ≤ c ∧ c ≤ 3 ∧ 0 ≤ b ∧ b ≤ 24 ∧ 1 ≤ e ∧ e ≤ 3 := by omega
    have d4 : (gy - 1600 + 3) / 4 = 100 * q + 25 * c + b + 1 := by omega
    have d100 : (gy - 1600 + 99) / 100 = 4 * q + c + 1 := by omega
    have d400 : (gy - 1600 + 399) / 400 = q + 1 := by omega
    exact gDayNo_reconstruct_common n gy gm gd doy (by omega) (by omega)
      (by unfold gregLeap; omega) hm hd (by omega)
  -- century path, leap-aligned block, first year of the block (leap year)
  · set c := (r0 - 1) / 36524 with hcdef
    set r' := (r0 - 1) % 36524 with hr'def
    have hc : r0 - 1 = 36524 * c + r' ∧ 0 ≤ r' ∧ r' < 36524 := by omega
    set b := (r' + 1) / 1461 with hbdef
    set r2 := (r' + 1) % 1461 with hr2def
    have hb : r' + 1 = 1461 * b + r2 ∧ 0 ≤ r2 ∧ r2 < 1461 := by omega
    have hcb : 1 ≤ c ∧ c ≤ 3 ∧ 1 ≤ b ∧ b ≤ 24 := by omega
    have d4 : (gy - 1600 + 3) / 4 = 100 * q + 25 * c + b := by omega
    have d100 : (gy - 1600 + 99) / 100 = 4 * q + c + 1 := by omega
    have d400 : (gy - 1600 + 399) / 400 = q + 1 := by omega
    exact gDayNo_reconstruct_leap n gy gm gd r2 (by omega) (by omega)
      (by unfold gregLeap; omega) hm hd (by omega)
  -- century path, century-year remainder below 365 but four-year part at least 366:
  -- arithmetically impossible
  · exfalso
    omega
  -- century path, the century year itself (common year)
  · set c := (r0 - 1) / 36524 with hcdef
    set r' := (r0 - 1) % 36524 with hr'def
    have hc : r0 - 1 = 36524 * c + r' ∧ 0 ≤ r' ∧ r' < 36524 := by omega
    have hcb : 1 ≤ c ∧ c ≤ 3 ∧ r' < 365 := by omega
    have hdiv0 : r' / 1461 = 0 ∧ r' % 1461 = r' := by omega
    have d4 : (gy - 1600 + 3) / 4 = 100 * q + 25 * c := by omega
    have d100 : (gy - 1600 + 99) / 100 = 4 * q + c := by omega
    have d400 : (gy - 1600 + 399) / 400 = q + 1 := by omega
    exact gDayNo_reconstruct_common n gy gm gd (r' % 1461) (by omega) (by omega)
      (by unfold gregLeap; omega) hm hd (by omega)
  -- first century of the cycle, year 1..3 of a four-year block (common year)
  · set b := r0 / 1461 with hbdef
    set r2 := r0 % 1461 with hr2def
    have hb : r0 = 1461 * b + r2 ∧ 0 ≤ r2 ∧ r2 < 1461 := by omega
    set e := (r2 - 1) / 365 with hedef
    set doy := (r2 - 1) % 365 with hdoydef
    have he : r2 - 1 = 365 * e + doy ∧ 0 ≤ doy ∧ doy < 365 := by omega
    have hcb : 0 ≤ b ∧ b ≤ 24 ∧ 1 ≤ e ∧ e ≤ 3 := by omega
    have d4 : (gy - 1600 + 3) / 4 = 100 * q + b + 1 := by omega
    have d100 : (gy - 1600 + 99) / 100 = 4 * q + 1 := by omega
    have d400 : (gy - 1600 + 399) / 400 = q + 1 := by omega
    exact gDayNo_reconstruct_common n gy gm gd doy (by omega) (by omega)
      (by unfold gregLeap; omega) hm hd (by omega)
  -- first century of the cycle, first year of a four-year block (leap year)
  · set b := r0 / 1461 with hbdef
    set r2 := r0 % 1461 with hr2def
    have hb : r0 = 1461 * b + r2 ∧ 0 ≤ r2 ∧ r2 < 1461 := by omega
    have hcb : 0 ≤ b ∧ b ≤ 24 := by omega
    have d4 : (gy - 1600 + 3) / 4 = 100 * q + b := by omega
    have d100 : (gy - 1600 + 99) / 100 = 4 * q + (4 * b + 99) / 100 := by omega
    have d400 : (gy - 1600 + 399) / 400 = q + (4 * b + 399) / 400 := by omega
    have dcan : (4 * b + 99) / 100 = (4 * b + 399) / 400 := by omega
    exact gDayNo_reconstruct_leap n gy gm gd r2 (by omega) (by omega)
      (by unfold gregLeap; omega) hm hd (by omega)

end GregorianInverse

section JalaliInverse

set_option maxHeartbeats 3200000 in
/-- The month scan of the Jalali decoder recovers month and day offset
from the prefix-sum encoding, for every valid month/day pair (day 30 of
month 12 included, as in leap years). -/
theorem jalali_month_encode (m d : Int) (h1 : 1 ≤ m) (h2 : m ≤ 12) (h3 : 1 ≤ d)
    (h4 : d ≤ if m = 12 then 30 else j_days_in_month.getD (m - 1).toNat 0) :
    monthLoop (j_days_in_month.take 11) 1 (sumTakeI j_days_in_month (m - 1) + (d - 1)) =
      (m, d - 1) := by
  interval_cases m
  · rw [show (if (1:Int) = 12 then (30:Int) else j_days_in_month.getD ((1:Int) - 1).toNat 0) = 31 from by decide] at h4
    interval_cases d <;> decide
  · rw [show (if (2:Int) = 12 then (30:Int) else j_days_in_month.getD ((2:Int) - 1).toNat 0) = 31 from by decide] at h4
    interval_cases d <;> decide
  · rw [show (if (3:Int) = 12 then (30:Int) else j_days_in_month.getD ((3:Int) - 1).toNat 0) = 31 from by decide] at h4
    interval_cases d <;> decide
  · rw [show (if (4:Int) = 12 then (30:Int) else j_days_in_month.getD ((4:Int) - 1).toNat 0) = 31 from by decide] at h4
    interval_cases d <;> decide
  · rw [show (if (5:Int) = 12 then (30:Int) else j_days_in_month.getD ((5:Int) - 1).toNat 0) = 31 from by decide] at h4
    interval_cases d <;> decide
  · rw [show (if (6:Int) = 12 then (30:Int) else j_days_in_month.getD ((6:Int) - 1).toNat 0) = 31 from by decide] at h4
    interval_cases d <;> decide
  · rw [show (if (7:Int) = 12 then (30:Int) else j_days_in_month.getD ((7:Int) - 1).toNat 0) = 30 from by decide] at h4
    interval_cases d <;> decide
  · rw [show (if (8:Int) = 12 then (30:Int) else j_days_in_month.getD ((8:Int) - 1).toNat 0) = 30 from by decide] at h4
    interval_cases d <;> decide
  · rw [show (if (9:Int) = 12 then (30:Int) else j_days_in_month.getD ((9:Int) - 1).toNat 0) = 30 from by decide] at h4
    interval_cases d <;> decide
  · rw [show (if (10:Int) = 12 then (30:Int) else j_days_in_month.getD ((10:Int) - 1).toNat 0) = 30 from by decide] at h4
    interval_cases d <;> decide
  · rw [show (if (11:Int) = 12 then (30:Int) else j_days_in_month.getD ((11:Int) - 1).toNat 0) = 30 from by decide] at h4
    interval_cases d <;> decide
  · rw [show (if (12:Int) = 12 then (30:Int) else j_days_in_month.getD ((12:Int) - 1).toNat 0) = 30 from by decide] at h4
    interval_cases d <;> decide

end JalaliInverse

set_option maxHeartbeats 1600000 in
/-- Day-of-year bounds for a valid Jalali date: the encoded offset is
inside the year (366 days only in leap years), and the day respects the
relaxed table bound used by the month scan. -/
theorem jalali_doy_bound (y m d : Int) (h : jalaliValid y m d) :
    0 ≤ sumTakeI j_days_in_month (m - 1) + (d - 1) ∧
    sumTakeI j_days_in_month (m - 1) + (d - 1) ≤ 364 + (if jalaliLeap y then 1 else 0) ∧
    d ≤ (if m = 12 then 30 else j_days_in_month.getD (m - 1).toNat 0) := by
  obtain ⟨ha, hb, hm1, hm2, hd1, hd2⟩ := h
  unfold jMonthDays at hd2
  by_cases hL : jalaliLeap y
  · simp only [hL, and_true, if_true] at hd2 ⊢
    interval_cases m
    · rw [show (if (1:Int) = 12 then (30:Int) else j_days_in_month.getD ((1:Int) - 1).toNat 0) = 31 from by decide] at hd2 ⊢
      rw [show sumTakeI j_days_in_month ((1:Int) - 1) = 0 from by decide]
      omega
    · rw [show (if (2:Int) = 12 then (30:Int) else j_days_in_month.getD ((2:Int) - 1).toNat 0) = 31 from by decide] at hd2 ⊢
      rw [show sumTakeI j_days_in_month ((2:Int) - 1) = 31 from by decide]
      omega
    · rw [show (if (3:Int) = 12 then (30:Int) else j_days_in_month.getD ((3:Int) - 1).toNat 0) = 31 from by decide] at hd2 ⊢
      rw [show sumTakeI j_days_in_month ((3:Int) - 1) = 62 from by decide]
      omega
    · rw [show (if (4:Int) = 12 then (30:Int) else j_days_in_month.getD ((4:Int) - 1).toNat 0) = 31 from by decide] at hd2 ⊢
      rw [show sumTakeI j_days_in_month ((4:Int) - 1) = 93 from by decide]
      omega
    · rw [show (if (5:Int) = 12 then (30:Int) else j_days_in_month.getD ((5:Int) - 1).toNat 0) = 31 from by decide] at hd2 ⊢
      rw [show sumTakeI j_days_in_month ((5:Int) - 1) = 124 from by decide]
      omega
    · rw [show (if (6:Int) = 12 then (30:Int) else j_days_in_month.getD ((6:Int) - 1).toNat 0) = 31 from by decide] at hd2 ⊢
      rw [show sumTakeI j_days_in_month ((6:Int) - 1) = 155 from by decide]
      omega
    · rw [show (if (7:Int) = 12 then (30:Int) else j_days_in_month.getD ((7:Int) - 1).toNat 0) = 30 from by decide] at hd2 ⊢
      rw [show sumTakeI j_days_in_month ((7:Int) - 1) = 186 from by decide]
      omega
    · rw [show (if (8:Int) = 12 then (30:Int) else j_days_in_month.getD ((8:Int) - 1).toNat 0) = 30 from by decide] at hd2 ⊢
      rw [show sumTakeI j_days_in_month ((8:Int) - 1) = 216 from by decide]
      omega
    · rw [show (if (9:Int) = 12 then (30:Int) else j_days_in_month.getD ((9:Int) - 1).toNat 0) = 30 from by decide] at hd2 ⊢
      rw [show sumTakeI j_days_in_month ((9:Int) - 1) = 246 from by decide]
      omega
    · rw [show (if (10:Int) = 12 then (30:Int) else j_days_in_month.getD ((10:Int) - 1).toNat 0) = 30 from by decide] at hd2 ⊢
      rw [show sumTakeI j_days_in_month ((10:Int) - 1) = 276 from by decide]
      omega
    · rw [show (if (11:Int) = 12 then (30:Int) else j_days_in_month.getD ((11:Int) - 1).toNat 0) = 30 from by decide] at hd2 ⊢
      rw [show sumTakeI j_days_in_month ((11:Int) - 1) = 306 from by decide]
      omega
    · rw [show (if (12:Int) = 12 then (30:Int) else j_days_in_month.getD ((12:Int) - 1).toNat 0) = 30 from by decide] at hd2 ⊢
      rw [show sumTakeI j_days_in_month ((12:Int) - 1) = 336 from by decide]
      omega
  · simp only [hL, and_false, if_false] at hd2 ⊢
    interval_cases m
    · rw [show j_days_in_month.getD ((1:Int) - 1).toNat 0 = 31 from by decide] at hd2
      rw [show (if (1:Int) = 12 then (30:Int) else j_days_in_month.getD ((1:Int) - 1).toNat 0) = 31 from by decide]
      rw [show sumTakeI j_days_in_month ((1:Int) - 1) = 0 from by decide]
      omega
    · rw [show j_days_in_month.getD ((2:Int) - 1).toNat 0 = 31 from by decide] at hd2
      rw [show (if (2:Int) = 12 then (30:Int) else j_days_in_month.getD ((2:Int) - 1).toNat 0) = 31 from by decide]
      rw [show sumTakeI j_days_in_month ((2:Int) - 1) = 31 from by decide]
      omega
    · rw [show j_days_in_month.getD ((3:Int) - 1).toNat 0 = 31 from by decide] at hd2
      rw [show (if (3:Int) = 12 then (30:Int) else j_days_in_month.getD ((3:Int) - 1).toNat 0) = 31 from by decide]
      rw [show sumTakeI j_days_in_month ((3:Int) - 1) = 62 from by decide]
      omega
    · rw [show j_days_in_month.getD ((4:Int) - 1).toNat 0 = 31 from by decide] at hd2
      rw [show (if (4:Int) = 12 then (30:Int) else j_days_in_month.getD ((4:Int) - 1).toNat 0) = 31 from by decide]
      rw [show sumTakeI j_days_in_month ((4:Int) - 1) = 93 from by decide]
      omega
    · rw [show j_days_in_month.getD ((5:Int) - 1).toNat 0 = 31 from by decide] at hd2
      rw [show (if (5:Int) = 12 then (30:Int) else j_days_in_month.getD ((5:Int) - 1).toNat 0) = 31 from by decide]
      rw [show sumTakeI j_days_in_month ((5:Int) - 1) = 124 from by decide]
      omega
    · rw [show j_days_in_month.getD ((6:Int) - 1).toNat 0 = 31 from by decide] at hd2
      rw [show (if (6:Int) = 12 then (30:Int) else j_days_in_month.getD ((6:Int) - 1).toNat 0) = 31 from by decide]
      rw [show sumTakeI j_days_in_month ((6:Int) - 1) = 155 from by decide]
      omega
    · rw [show j_days_in_month.getD ((7:Int) - 1).toNat 0 = 30 from by decide] at hd2
      rw [show (if (7:Int) = 12 then (30:Int) else j_days_in_month.getD ((7:Int) - 1).toNat 0) = 30 from by decide]
      rw [show sumTakeI j_days_in_month ((7:Int) - 1) = 186 from by decide]
      omega
    · rw [show j_days_in_month.getD ((8:Int) - 1).toNat 0 = 30 from by decide] at hd2
      rw [show (if (8:Int) = 12 then (30:Int) else j_days_in_month.getD ((8:Int) - 1).toNat 0) = 30 from by decide]
      rw [show sumTakeI j_days_in_month ((8:Int) - 1) = 216 from by decide]
      omega
    · rw [show j_days_in_month.getD ((9:Int) - 1).toNat 0 = 30 from by decide] at hd2
      rw [show (if (9:Int) = 12 then (30:Int) else j_days_in_month.getD ((9:Int) - 1).toNat 0) = 30 from by decide]
      rw [show sumTakeI j_days_in_month ((9:Int) - 1) = 246 from by decide]
      omega
    · rw [show j_days_in_month.getD ((10:Int) - 1).toNat 0 = 30 from by decide] at hd2
      rw [show (if (10:Int) = 12 then (30:Int) else j_days_in_month.getD ((10:Int) - 1).toNat 0) = 30 from by decide]
      rw [show sumTakeI j_days_in_month ((10:Int) - 1) = 276 from by decide]
      omega
    · rw [show j_days_in_month.getD ((11:Int) - 1).toNat 0 = 30 from by decide] at hd2
      rw [show (if (11:Int) = 12 then (30:Int) else j_days_in_month.getD ((11:Int) - 1).toNat 0) = 30 from by decide]
      rw [show sumTakeI j_days_in_month ((11:Int) - 1) = 306 from by decide]
      omega
    · rw [show j_days_in_month.getD ((12:Int) - 1).toNat 0 = 29 from by decide] at hd2
      rw [show (if (12:Int) = 12 then (30:Int) else j_days_in_month.getD ((12:Int) - 1).toNat 0) = 30 from by decide]
      rw [show sumTakeI j_days_in_month ((12:Int) - 1) = 336 from by decide]
      omega

set_option maxHeartbeats 3200000 in
/-- The Jalali day-number decoder of jalali.py recovers every valid
Jalali date from its day number. -/
theorem jalaliFromDayNo_jDayNo (y m d : Int) (h : jalaliValid y m d) :
    jalaliFromDayNo (jDayNo y m d) = (y, m, d) := by
  obtain ⟨hb0, hbU, hd4⟩ := jalali_doy_bound y m d h
  obtain ⟨hy1, hy2, hm1, hm2, hd1, hd2⟩ := h
  have hml := jalali_month_encode m d hm1 hm2 hd1 hd4
  rcases hg : jalaliFromDayNo (jDayNo y m d) with ⟨y', m', d'⟩
  simp only [jalaliFromDayNo, jDayNo] at hg
  set A := (y - 979) / 33 with hA
  set R := (y - 979) % 33 with hR
  set S := sumTakeI j_days_in_month (m - 1) with hS
  have hAR : y - 979 = 33 * A + R ∧ 0 ≤ R ∧ R < 33 := by omega
  set N := 365 * (y - 979) + A * 8 + (R + 3) / 4 + S + (d - 1) with hN
  set B := R / 4 with hB
  set Sb := R % 4 with hSb
  have hBS : R = 4 * B + Sb ∧ 0 ≤ Sb ∧ Sb < 4 := by omega
  have hNx : N = 12053 * A + (365 * R + (R + 3) / 4 + S + (d - 1)) := by omega
  by_cases hL : jalaliLeap y
  all_goals (first | rw [if_pos hL] at hbU | rw [if_neg hL] at hbU)
  all_goals unfold jalaliLeap at hL
  all_goals (have hLR : (365 * R + (R + 3) / 4 + S + (d - 1)) < 12053 := by omega)
  all_goals (have hq1 : N / 12053 = A ∧
    N % 12053 = 365 * R + (R + 3) / 4 + S + (d - 1) := by omega)
  all_goals (have hoff : 365 * R + (R + 3) / 4 = 1461 * B + (365 * Sb + (Sb + 3) / 4) := by omega)
  all_goals (have hq2 : N % 12053 / 1461 = B ∧
    N % 12053 % 1461 = 365 * Sb + (Sb + 3) / 4 + S + (d - 1) := by omega)
  all_goals split_ifs at hg with h1
  all_goals (rw [hq2.2] at h1)
  -- leap year: the day-of-year never reaches the 366-adjustment branch
  · exfalso
    omega
  -- leap year, small remainder
  · rw [show N % 12053 % 1461 = S + (d - 1) from by omega] at hg
    rw [hml] at hg
    dsimp only at hg
    simp only [Prod.mk.injEq] at hg ⊢
    obtain ⟨hy', hm', hd'⟩ := hg
    refine ⟨by omega, by omega, by omega⟩
  -- common year, remainder past the leap day slot
  · have hSb1 : 1 ≤ Sb := by omega
    have hg4 : (Sb + 3) / 4 = 1 := by omega
    have hx : N % 12053 % 1461 - 1 = 365 * Sb + (S + (d - 1)) := by omega
    rw [hx] at hg
    rw [show (365 * Sb + (S + (d - 1))) % 365 = S + (d - 1) from by omega] at hg
    rw [show (365 * Sb + (S + (d - 1))) / 365 = Sb from by omega] at hg
    rw [hml] at hg
    dsimp only at hg
    simp only [Prod.mk.injEq] at hg ⊢
    obtain ⟨hy', hm', hd'⟩ := hg
    refine ⟨by omega, by omega, by omega⟩
  -- common year, small remainder
  · rw [show N % 12053 % 1461 = S + (d - 1) from by omega] at hg
    rw [hml] at hg
    dsimp only at hg
    simp only [Prod.mk.injEq] at hg ⊢
    obtain ⟨hy', hm', hd'⟩ := hg
    refine ⟨by omega, by omega, by omega⟩

/-! ### String layer: strict YYYY-MM-DD parsing and formatting

jalali_to_gregorian (src/kharge.py line 36) parses its argument with
jdatetime.date.fromisoformat (canonical zero-padded YYYY-MM-DD) and the
jdatetime.date constructor validates the fields; gregorian_to_jalali
(line 47) renders with strftime("%Y-%m-%d"), zero-padded.  datetime
dates are rendered with date.isoformat(), the same canonical form. -/

def digitVal (c : Char) : Option Nat :=
  if c = '0' then some 0 else if c = '1' then some 1 else if c = '2' then some 2
  else if c = '3' then some 3 else if c = '4' then some 4 else if c = '5' then some 5
  else if c = '6' then some 6 else if c = '7' then some 7 else if c = '8' then some 8
  else if c = '9' then some 9 else none

def digitChar (n : Nat) : Char :=
  if n = 0 then '0' else if n = 1 then '1' else if n = 2 then '2'
  else if n = 3 then '3' else if n = 4 then '4' else if n = 5 then '5'
  else if n = 6 then '6' else if n = 7 then '7' else if n = 8 then '8'
  else if n = 9 then '9' else '0'

/-- Zero-padded two-digit rendering (%02d for values below 100). -/
def pad2 (n : Nat) : List Char := [digitChar (n / 10 % 10), digitChar (n % 10)]

/-- Zero-padded four-digit rendering (%04d for values below 10000). -/
def pad4 (n : Nat) : List Char :=
  [digitChar (n / 1000 % 10), digitChar (n / 100 % 10), digitChar (n / 10 % 10),
   digitChar (n % 10)]

def formatIsoDate (y m d : Int) : String :=
  ⟨pad4 y.toNat ++ '-' :: (pad2 m.toNat ++ '-' :: pad2 d.toNat)⟩

def parseIsoDate (s : String) : Option (Int × Int × Int) :=
  match s.data with
  | [y1, y2, y3, y4, c1, m1, m2, c2, d1, d2] =>
    if c1 = '-' ∧ c2 = '-' then
      (digitVal y1).bind fun a =>
      (digitVal y2).bind fun b =>
      (digitVal y3).bind fun c =>
      (digitVal y4).bind fun e =>
      (digitVal m1).bind fun f =>
      (digitVal m2).bind fun g =>
      (digitVal d1).bind fun i =>
      (digitVal d2).bind fun j =>
      some (((a * 1000 + b * 100 + c * 10 + e : Nat) : Int),
            ((f * 10 + g : Nat) : Int), ((i * 10 + j : Nat) : Int))
    else none
  | _ => none

theorem digitVal_spec (c : Char) (v : Nat) (h : digitVal c = some v) :
    v < 10 ∧ digitChar v = c := by
  unfold digitVal at h
  split_ifs at h
  all_goals (injection h with hv)
  all_goals subst_vars
  all_goals exact ⟨by norm_num, by decide⟩

theorem parseIsoDate_len0 : parseIsoDate ⟨[]⟩ = none := rfl

theorem parseIsoDate_len1 (a0 : Char) : parseIsoDate ⟨[a0]⟩ = none := rfl

theorem parseIsoDate_len2 (a0 a1 : Char) : parseIsoDate ⟨[a0, a1]⟩ = none := rfl

theorem parseIsoDate_len3 (a0 a1 a2 : Char) : parseIsoDate ⟨[a0, a1, a2]⟩ = none := rfl

theorem parseIsoDate_len4 (a0 a1 a2 a3 : Char) : parseIsoDate ⟨[a0, a1, a2, a3]⟩ = none := rfl

theorem parseIsoDate_len5 (a0 a1 a2 a3 a4 : Char) : parseIsoDate ⟨[a0, a1, a2, a3, a4]⟩ = none := rfl

theorem parseIsoDate_len6 (a0 a1 a2 a3 a4 a5 : Char) : parseIsoDate ⟨[a0, a1, a2, a3, a4, a5]⟩ = none := rfl

theorem parseIsoDate_len7 (a0 a1 a2 a3 a4 a5 a6 : Char) : parseIsoDate ⟨[a0, a1, a2, a3, a4, a5, a6]⟩ = none := rfl

theorem parseIsoDate_len8 (a0 a1 a2 a3 a4 a5 a6 a7 : Char) : parseIsoDate ⟨[a0, a1, a2, a3, a4, a5, a6, a7]⟩ = none := rfl

theorem parseIsoDate_len9 (a0 a1 a2 a3 a4 a5 a6 a7 a8 : Char) : parseIsoDate ⟨[a0, a1, a2, a3, a4, a5, a6, a7, a8]⟩ = none := rfl

theorem parseIsoDate_long (a0 a1 a2 a3 a4 a5 a6 a7 a8 a9 a10 : Char) (l : List Char) :
    parseIsoDate ⟨a0 :: a1 :: a2 :: a3 :: a4 :: a5 :: a6 :: a7 :: a8 :: a9 :: a10 :: l⟩ = none := rfl

theorem parseIsoDate_ten (y1 y2 y3 y4 c1 m1 m2 c2 d1 d2 : Char) :
    parseIsoDate ⟨[y1, y2, y3, y4, c1, m1, m2, c2, d1, d2]⟩ =
    (if c1 = '-' ∧ c2 = '-' then
      (digitVal y1).bind fun a =>
      (digitVal y2).bind fun b =>
      (digitVal y3).bind fun c =>
      (digitVal y4).bind fun e =>
      (digitVal m1).bind fun f =>
      (digitVal m2).bind fun g =>
      (digitVal d1).bind fun i =>
      (digitVal d2).bind fun j =>
      some (((a * 1000 + b * 100 + c * 10 + e : Nat) : Int),
            ((f * 10 + g : Nat) : Int), ((i * 10 + j : Nat) : Int))
    else none) := rfl

set_option maxHeartbeats 1600000 in
/-- Canonical parsing inverts canonical formatting: a string accepted by
the strict YYYY-MM-DD parser is re-rendered exactly by the zero-padded
formatter. -/
theorem formatIsoDate_parseIsoDate (s : String) (y m d : Int)
    (hp : parseIsoDate s = some (y, m, d)) : formatIsoDate y m d = s := by
  rcases s with ⟨l⟩
  rcases l with _ | ⟨a0, _ | ⟨a1, _ | ⟨a2, _ | ⟨a3, _ | ⟨a4, _ | ⟨a5, _ | ⟨a6, _ | ⟨a7, _ | ⟨a8, _ | ⟨a9, _ | ⟨a10, l⟩⟩⟩⟩⟩⟩⟩⟩⟩⟩⟩
  · rw [parseIsoDate_len0] at hp; exact Option.noConfusion hp
  · rw [parseIsoDate_len1] at hp; exact Option.noConfusion hp
  · rw [parseIsoDate_len2] at hp; exact Option.noConfusion hp
  · rw [parseIsoDate_len3] at hp; exact Option.noConfusion hp
  · rw [parseIsoDate_len4] at hp; exact Option.noConfusion hp
  · rw [parseIsoDate_len5] at hp; exact Option.noConfusion hp
  · rw [parseIsoDate_len6] at hp; exact Option.noConfusion hp
  · rw [parseIsoDate_len7] at hp; exact Option.noConfusion hp
  · rw [parseIsoDate_len8] at hp; exact Option.noConfusion hp
  · rw [parseIsoDate_len9] at hp; exact Option.noConfusion hp
  · rw [parseIsoDate_ten] at hp
    split_ifs at hp with hdash
    · obtain ⟨hd1, hd2⟩ := hdash
      rcases h0 : digitVal a0 with _ | v0 <;> rw [h0] at hp <;>
        simp only [Option.none_bind, Option.some_bind] at hp
      · exact Option.noConfusion hp
      rcases h1 : digitVal a1 with _ | v1 <;> rw [h1] at hp <;>
        simp only [Option.none_bind, Option.some_bind] at hp
      · exact Option.noConfusion hp
      rcases h2 : digitVal a2 with _ | v2 <;> rw [h2] at hp <;>
        simp only [Option.none_bind, Option.some_bind] at hp
      · exact Option.noConfusion hp
      rcases h3 : digitVal a3 with _ | v3 <;> rw [h3] at hp <;>
        simp only [Option.none_bind, Option.some_bind] at hp
      · exact Option.noConfusion hp
      rcases h5 : digitVal a5 with _ | v5 <;> rw [h5] at hp <;>
        simp only [Option.none_bind, Option.some_bind] at hp
      · exact Option.noConfusion hp
      rcases h6 : digitVal a6 with _ | v6 <;> rw [h6] at hp <;>
        simp only [Option.none_bind, Option.some_bind] at hp
      · exact Option.noConfusion hp
      rcases h8 : digitVal a8 with _ | v8 <;> rw [h8] at hp <;>
        simp only [Option.none_bind, Option.some_bind] at hp
      · exact Option.noConfusion hp
      rcases h9 : digitVal a9 with _ | v9 <;> rw [h9] at hp <;>
        simp only [Option.none_bind, Option.some_bind] at hp
      · exact Option.noConfusion hp
      obtain ⟨b0, hc0⟩ := digitVal_spec a0 v0 h0
      obtain ⟨b1, hc1⟩ := digitVal_spec a1 v1 h1
      obtain ⟨b2, hc2⟩ := digitVal_spec a2 v2 h2
      obtain ⟨b3, hc3⟩ := digitVal_spec a3 v3 h3
      obtain ⟨b5, hc5⟩ := digitVal_spec a5 v5 h5
      obtain ⟨b6, hc6⟩ := digitVal_spec a6 v6 h6
      obtain ⟨b8, hc8⟩ := digitVal_spec a8 v8 h8
      obtain ⟨b9, hc9⟩ := digitVal_spec a9 v9 h9
      injection hp with htrip
      simp only [Prod.mk.injEq] at htrip
      obtain ⟨hy, hm, hd⟩ := htrip
      subst hy hm hd hd1 hd2
      simp only [formatIsoDate, pad4, pad2, Int.toNat_ofNat, List.cons_append,
        List.nil_append]
      refine congrArg String.mk ?_
      simp only [List.cons.injEq, and_true]
      refine ⟨?_, ?_, ?_, ?_, trivial, ?_, ?_, trivial, ?_, ?_⟩
      · rw [show (v0 * 1000 + v1 * 100 + v2 * 10 + v3) / 1000 % 10 = v0 from by omega, hc0]
      · rw [show (v0 * 1000 + v1 * 100 + v2 * 10 + v3) / 100 % 10 = v1 from by omega, hc1]
      · rw [show (v0 * 1000 + v1 * 100 + v2 * 10 + v3) / 10 % 10 = v2 from by omega, hc2]
      · rw [show (v0 * 1000 + v1 * 100 + v2 * 10 + v3) % 10 = v3 from by omega, hc3]
      · rw [show (v5 * 10 + v6) / 10 % 10 = v5 from by omega, hc5]
      · rw [show (v5 * 10 + v6) % 10 = v6 from by omega, hc6]
      · rw [show (v8 * 10 + v9) / 10 % 10 = v8 from by omega, hc8]
      · rw [show (v8 * 10 + v9) % 10 = v9 from by omega, hc9]
  · rw [parseIsoDate_long] at hp; exact Option.noConfusion hp

/-- jalali_to_gregorian (src/kharge.py lines 36-44): parse the string as
a Jalali date (jdatetime.date.fromisoformat and constructor validation),
convert with the day-number algorithm, and build a datetime.date (which
validates the Gregorian triple); any failure raises, modelled as none. -/
def jalali_to_gregorian (s : String) : Option (Int × Int × Int) :=
  (parseIsoDate s).bind fun t =>
    if jalaliValid t.1 t.2.1 t.2.2 then
      if gregValid (gregFromDayNo (jDayNo t.1 t.2.1 t.2.2 + 79)).1
          (gregFromDayNo (jDayNo t.1 t.2.1 t.2.2 + 79)).2.1
          (gregFromDayNo (jDayNo t.1 t.2.1 t.2.2 + 79)).2.2 then
        some (gregFromDayNo (jDayNo t.1 t.2.1 t.2.2 + 79))
      else none
    else none

/-- gregorian_to_jalali (src/kharge.py lines 47-50): convert the
Gregorian date with the day-number algorithm and render the Jalali date
with strftime, zero-padded YYYY-MM-DD. -/
def gregorian_to_jalali (g : Int × Int × Int) : String :=
  formatIsoDate (jalaliFromDayNo (gDayNo g.1 g.2.1 g.2.2 - 79)).1
    (jalaliFromDayNo (gDayNo g.1 g.2.1 g.2.2 - 79)).2.1
    (jalaliFromDayNo (gDayNo g.1 g.2.1 g.2.2 - 79)).2.2

set_option maxHeartbeats 1600000 in
/-- Conversion of a valid Jalali date always succeeds: the decoded
Gregorian triple passes the datetime.date validation. -/
theorem jalali_to_gregorian_total (y m d : Int) (h : jalaliValid y m d) :
    gregValid (gregFromDayNo (jDayNo y m d + 79)).1
      (gregFromDayNo (jDayNo y m d + 79)).2.1
      (gregFromDayNo (jDayNo y m d + 79)).2.2 := by
  obtain ⟨hb0, hbU, _⟩ := jalali_doy_bound y m d h
  obtain ⟨hy1, hy2, hm1, hm2, hd1, _⟩ := h
  have hsd : sumTakeI j_days_in_month (m - 1) + (d - 1) ≤ 365 := by
    by_cases hL : jalaliLeap y <;> simp [hL] at hbU <;> omega
  have hn : -357128 ≤ jDayNo y m d + 79 ∧ jDayNo y m d + 79 ≤ 3067751 := by
    simp only [jDayNo]
    omega
  obtain ⟨hi1, hi2, hi3, hi4, hi5, hlo, hhi⟩ := gregFromDayNo_inv (jDayNo y m d + 79)
  have hstart : gDayNo (gregFromDayNo (jDayNo y m d + 79)).1 1 1 =
      365 * ((gregFromDayNo (jDayNo y m d + 79)).1 - 1600)
      + ((gregFromDayNo (jDayNo y m d + 79)).1 - 1600 + 3) / 4
      - ((gregFromDayNo (jDayNo y m d + 79)).1 - 1600 + 99) / 100
      + ((gregFromDayNo (jDayNo y m d + 79)).1 - 1600 + 399) / 400 := by
    simp [gDayNo, sumTakeI_zero]
  rw [hstart] at hlo hhi
  exact ⟨by omega, by omega, hi2, hi3, hi4, hi5⟩

/-- Claim C8: calendar round-trip.  For every string in canonical
YYYY-MM-DD form that parses as a valid Jalali date, jalali_to_gregorian
succeeds and gregorian_to_jalali maps the result back to the original
string. -/
theorem C8_calendar_roundtrip (s : String) (y m d : Int)
    (hp : parseIsoDate s = some (y, m, d)) (hv : jalaliValid y m d) :
    ∃ g, jalali_to_gregorian s = some g ∧ gregorian_to_jalali g = s := by
  refine ⟨gregFromDayNo (jDayNo y m d + 79), ?_, ?_⟩
  · unfold jalali_to_gregorian
    rw [hp]
    simp only [Option.some_bind]
    rw [if_pos hv, if_pos (jalali_to_gregorian_total y m d hv)]
  · unfold gregorian_to_jalali
    obtain ⟨hi1, _, _, _, _, _, _⟩ := gregFromDayNo_inv (jDayNo y m d + 79)
    rw [hi1]
    rw [show jDayNo y m d + 79 - 79 = jDayNo y m d from by ring]
    rw [jalaliFromDayNo_jDayNo y m d hv]
    exact formatIsoDate_parseIsoDate s y m d hp

/-! ## Data model: cells, raw tables, records

A pandas cell is modelled as a string, an exact numeric value (Rat in
place of float64/int64), or a null (None/NaN).  A raw CSV-derived
DataFrame is a column-name list plus rows of cells. -/

inductive Cell where
  | str (s : String)
  | num (q : Rat)
  | null
deriving DecidableEq, Repr

structure RawTable where
  cols : List String
  rows : List (List Cell)
deriving DecidableEq, Repr

/-- Reading column `name` of a row (df row indexing): the cell aligned
with the first column of that name; null when the column is absent (or
the row is exhausted, which rectangular frames never are). -/
def getCol : List String → List Cell → String → Cell
  | [], _, _ => Cell.null
  | c :: cs, row, name =>
    if c = name then row.headD Cell.null else getCol cs row.tail name

/-- Reading column `name` with a default for a missing column
(row.get(name, dflt)). -/
def getColD : List String → List Cell → String → Cell → Cell
  | [], _, _, dflt => dflt
  | c :: cs, row, name, dflt =>
    if c = name then row.headD Cell.null else getColD cs row.tail name dflt

/-- Writing column `name` of a row (df column assignment, per row). -/
def setCol : List String → List Cell → String → Cell → List Cell
  | [], row, _, _ => row
  | _ :: _, [], _, _ => []
  | c :: cs, x :: xs, name, v =>
    if c = name then v :: xs else x :: setCol cs xs name v

/-- Digit-list value; none when any character is not a digit (empty
lists are allowed and read as 0, for forms like "1." and ".5"). -/
def digitsVal (l : List Char) : Option Nat :=
  l.foldl (fun acc c => acc.bind (fun n => (digitVal c).map (fun v => n * 10 + v))) (some 0)

/-- Split a character list at the first dot. -/
def splitDot : List Char → List Char × Option (List Char)
  | [] => ([], none)
  | c :: cs =>
    if c = '.' then ([], some cs)
    else
      let r := splitDot cs
      (c :: r.1, r.2)

/-- Numeric-literal parsing of pd.to_numeric, for signed integer and
decimal forms (the fragment the program data exercises; scientific
notation is outside the modelled fragment). -/
def parseNum (s : String) : Option Rat :=
  match s.data with
  | [] => none
  | c :: cs =>
    let neg := c = '-'
    let body := if neg ∨ c = '+' then cs else c :: cs
    if body = [] then none
    else
      match splitDot body with
      | (ip, none) =>
        (digitsVal ip).map (fun n => (if neg then -1 else 1) * (n : Rat))
      | (ip, some fp) =>
        if ip = [] ∧ fp = [] then none
        else
          (digitsVal ip).bind fun n =>
            (digitsVal fp).map fun f =>
              (if neg then -1 else 1) * ((n : Rat) + (f : Rat) / (10 : Rat) ^ fp.length)

/-- pd.to_numeric(cell, errors=coerce); none models the NaN result. -/
def to_numeric (c : Cell) : Option Rat :=
  match c with
  | .num q => some q
  | .str s => parseNum s
  | .null => none

/-- Python int() applied to a float: truncation toward zero (T-division
of the reduced numerator by the denominator). -/
def ratTrunc (q : Rat) : Int := q.num.tdiv (q.den : Int)

/-- Python str() of a dataframe cell.  A numeric repr never contains a
date separator, so it can never parse as a YYYY-MM-DD date. -/
def pyStr (c : Cell) : String :=
  match c with
  | .str s => s
  | .num q => if q.den = 1 then toString q.num else toString q
  | .null => "nan"

/-- An in-memory expense row of the session table.  Fields that the
program always writes as strings are String; description and card may
be null for rows read from older files (Option). -/
structure Record where
  id : String
  date_jalali : String
  date_gregorian : String
  amount : Rat
  description : Option String
  card : Option String
deriving DecidableEq, Repr

/-- Python str.strip(): drop leading and trailing whitespace. -/
def pySpace (c : Char) : Bool :=
  c = ' ' ∨ c = '\t' ∨ c = '\n' ∨ c = '\r' ∨ c = '\x0b' ∨ c = '\x0c'

def pyStrip (s : String) : String :=
  ⟨((s.data.dropWhile pySpace).reverse.dropWhile pySpace).reverse⟩

/-- datetime.date.isoformat of a Gregorian triple. -/
def pyIsoOfTriple (g : Int × Int × Int) : String := formatIsoDate g.1 g.2.1 g.2.2

/-! ## Ledger store: read_data (src/kharge.py lines 53-81) -/

def expected : List String :=
  ["id", "date_jalali", "date_gregorian", "amount", "description", "card"]

/-- read_data: if no file exists return an empty table with the fixed
schema; otherwise read the CSV, add missing expected column as null,
coerce the amount column to numeric with NaN replaced by 0, and select
exactly the expected columns in order. -/
def read_data (file : Option RawTable) : RawTable :=
  match file with
  | none => ⟨expected, []⟩
  | some t =>
    let missing := expected.filter (fun c => ¬ t.cols.contains c)
    let cols1 := t.cols ++ missing
    let rows1 := t.rows.map (fun r => r ++ missing.map (fun _ => Cell.null))
    let rows2 := rows1.map (fun r =>
      setCol cols1 r "amount" (Cell.num ((to_numeric (getCol cols1 r "amount")).getD 0)))
    ⟨expected, rows2.map (fun r => expected.map (getCol cols1 r))⟩

/-! ## Record builder: manual entry (src/kharge.py lines 113-135) -/

inductive BuildError where
  | missingDate
  | nonPositiveAmount
  | invalidDateFormat
deriving DecidableEq, Repr

/-- The submit handler of the add-expense form: empty date and
non-positive amount are rejected first, then the Jalali date is
converted (failure raises, caught as an error); on success the new row
is built with a fresh id, the ISO Gregorian date, trimmed description
and card, and int(amount) (the integer-format number input already
yields an integer). -/
def build (newId : String) (date_jalali : String) (amount : Int)
    (description card : String) : Except BuildError Record :=
  if date_jalali = "" then .error .missingDate
  else if amount ≤ 0 then .error .nonPositiveAmount
  else
    match jalali_to_gregorian date_jalali with
    | none => .error .invalidDateFormat
    | some g => .ok {
        id := newId,
        date_jalali := date_jalali,
        date_gregorian := pyIsoOfTriple g,
        amount := (amount : Rat),
        description := some (pyStrip description),
        card := some (pyStrip card) }

/-- The session-surface effect of a submit: on success the record is
appended to the in-memory table and the new table is persisted; on
failure the table is untouched and nothing is written. -/
def add_expense (df : List Record) (newId date_jalali : String) (amount : Int)
    (description card : String) : List Record × Option (List Record) × Option BuildError :=
  match build newId date_jalali amount description card with
  | .error e => (df, none, some e)
  | .ok rec => (df ++ [rec], some (df ++ [rec]), none)

/-! ## CSV import (src/kharge.py lines 228-257) -/

instance {E A : Type} [DecidableEq E] [DecidableEq A] : DecidableEq (Except E A)
  | .error a, .error b =>
    if h : a = b then .isTrue (by rw [h]) else .isFalse (by simp [h])
  | .error _, .ok _ => .isFalse (by simp)
  | .ok _, .error _ => .isFalse (by simp)
  | .ok a, .ok b =>
    if h : a = b then .isTrue (by rw [h]) else .isFalse (by simp [h])

inductive ImportError where
  | missingColumn (name : String)
  | invalidDate
  | nanToInt
deriving DecidableEq, Repr

/-- One iteration of the import loop: convert str(row date) to
Gregorian (raising on failure), then compute
int(pd.to_numeric(amount, errors=coerce) or 0).  A NaN amount is truthy
in Python, so int() is applied to NaN and raises, modelled as nanToInt;
a parsed value is truncated toward zero.  description/card default to
the empty string when the column is absent (the pre-loop
imp.get normalization). -/
def buildImportRow (newId : String) (cols : List String) (row : List Cell) :
    Except ImportError Record :=
  let dstr := pyStr (getCol cols row "date_jalali")
  match jalali_to_gregorian dstr with
  | none => .error .invalidDate
  | some g =>
    match to_numeric (getCol cols row "amount") with
    | none => .error .nanToInt
    | some q => .ok {
        id := newId,
        date_jalali := dstr,
        date_gregorian := pyIsoOfTriple g,
        amount := ((ratTrunc q : Int) : Rat),
        description := some (pyStr (getColD cols row "description" (Cell.str ""))),
        card := some (pyStr (getColD cols row "card" (Cell.str ""))) }

/-- The records list built by the import loop, with fresh ids drawn from
an id supply; the first failing row aborts the whole loop. -/
def importRows (ids : Nat → String) (cols : List String) :
    List (List Cell) → Nat → Except ImportError (List Record)
  | [], _ => .ok []
  | r :: rest, k =>
    match buildImportRow (ids k) cols r with
    | .error e => .error e
    | .ok rec =>
      match importRows ids cols rest (k + 1) with
      | .error e => .error e
      | .ok recs => .ok (rec :: recs)

/-- The import handler: require the date_jalali and amount columns (in
that order), build all rows, and only then append the batch to the
in-memory table and persist it; any raised error is caught at the end,
leaving the table untouched and nothing written. -/
def import_csv (df : List Record) (ids : Nat → String) (imp : RawTable) :
    List Record × Option (List Record) × Option ImportError :=
  if ¬ imp.cols.contains "date_jalali" then
    (df, none, some (.missingColumn "date_jalali"))
  else if ¬ imp.cols.contains "amount" then
    (df, none, some (.missingColumn "amount"))
  else
    match importRows ids imp.cols imp.rows 0 with
    | .error e => (df, none, some e)
    | .ok recs => (df ++ recs, some (df ++ recs), none)

/-! ## Query engine: filters, sort, aggregation (src/kharge.py lines 149-201) -/

/-- Python string comparison: lexicographic on code points. -/
def charListLe : List Char → List Char → Bool
  | [], _ => true
  | _ :: _, [] => false
  | a :: as, b :: bs => if a = b then charListLe as bs else decide (a < b)

def strLeB (a b : String) : Bool := charListLe a.data b.data

theorem charListLe_refl : ∀ a : List Char, charListLe a a = true
  | [] => rfl
  | a :: as => by simpa only [charListLe, if_pos rfl] using charListLe_refl as

theorem charListLe_total : ∀ a b : List Char, charListLe a b = true ∨ charListLe b a = true
  | [], _ => Or.inl rfl
  | _ :: _, [] => Or.inr rfl
  | a :: as, b :: bs => by
    by_cases hab : a = b
    · subst hab
      simpa only [charListLe, if_pos rfl] using charListLe_total as bs
    · rcases lt_or_gt_of_ne hab with h | h
      · left
        simp only [charListLe, if_neg hab]
        exact decide_eq_true h
      · right
        simp only [charListLe, if_neg (Ne.symm hab)]
        exact decide_eq_true h

theorem charListLe_trans : ∀ a b c : List Char,
    charListLe a b = true → charListLe b c = true → charListLe a c = true
  | [], _, _ => fun _ _ => rfl
  | _ :: _, [], _ => fun h _ => by simp [charListLe] at h
  | _ :: _, _ :: _, [] => fun _ h => by simp [charListLe] at h
  | a :: as, b :: bs, c :: cs => fun h1 h2 => by
    by_cases hab : a = b <;> by_cases hbc : b = c
    · subst hab hbc
      simp only [charListLe, if_pos rfl] at h1 h2 ⊢
      exact charListLe_trans as bs cs h1 h2
    · subst hab
      simp only [charListLe, if_neg hbc] at h2 ⊢
      exact h2
    · subst hbc
      simp only [charListLe, if_neg hab] at h1 ⊢
      exact h1
    · simp only [charListLe, if_neg hab] at h1
      simp only [charListLe, if_neg hbc] at h2
      have h3 : a < c := lt_trans (of_decide_eq_true h1) (of_decide_eq_true h2)
      have hac : a ≠ c := ne_of_lt h3
      simp only [charListLe, if_neg hac]
      exact decide_eq_true h3

/-- The date-filtering try block (lines 151-160).  Both bounds live in
one try: converting and applying the start bound happens first, so a
start-bound conversion failure aborts the block before the end bound is
even examined; the exception is caught and only a warning is shown
(the Bool result).  Comparison is string comparison of ISO dates. -/
def date_filter (tbl : List Record) (start_j end_j : String) : List Record × Bool :=
  if start_j = "" then
    if end_j = "" then (tbl, false)
    else
      match jalali_to_gregorian end_j with
      | none => (tbl, true)
      | some g => (tbl.filter (fun r => strLeB r.date_gregorian (pyIsoOfTriple g)), false)
  else
    match jalali_to_gregorian start_j with
    | none => (tbl, true)
    | some g =>
      let t1 := tbl.filter (fun r => strLeB (pyIsoOfTriple g) r.date_gregorian)
      if end_j = "" then (t1, false)
      else
        match jalali_to_gregorian end_j with
        | none => (t1, true)
        | some g2 => (t1.filter (fun r => strLeB r.date_gregorian (pyIsoOfTriple g2)), false)

/-- A regular-expression element of the literal/dot fragment. -/
inductive RElem where
  | lit (c : Char)
  | dot
deriving DecidableEq, Repr

/-- Compile a needle string the way re.compile sees it, within the
fragment of ordinary characters plus the dot wildcard; needles using
other regex metacharacters are outside the modelled fragment. -/
def toPattern (s : String) : Option (List RElem) :=
  if s.data.any (fun c =>
      c = '\\' ∨ c = '^' ∨ c = '$' ∨ c = '*' ∨ c = '+' ∨ c = '?' ∨
      c = '\x7b' ∨ c = '\x7d' ∨ c = '[' ∨ c = ']' ∨ c = '|' ∨ c = '(' ∨ c = ')') then
    none
  else some (s.data.map (fun c => if c = '.' then RElem.dot else RElem.lit c))

/-- One pattern element against one character, case-insensitively
(re.IGNORECASE); the dot matches everything except a newline. -/
def elemMatch (p : RElem) (c : Char) : Bool :=
  match p with
  | .lit a => a.toLower == c.toLower
  | .dot => c != '\n'

/-- Anchored match of a pattern prefix. -/
def matchHere : List RElem → List Char → Bool
  | [], _ => true
  | _ :: _, [] => false
  | p :: ps, c :: cs => elemMatch p c && matchHere ps cs

/-- re.search: try an anchored match at every position. -/
def reSearch (pat : List RElem) : List Char → Bool
  | [] => matchHere pat []
  | c :: cs => matchHere pat (c :: cs) || reSearch pat cs

/-- Series.str.contains(needle, case=False, na=False) on one value:
pandas compiles the needle as a regular expression (regex=True is the
default) with IGNORECASE and runs re.search. -/
def str_contains_ci (needle hay : String) : Bool :=
  match toPattern needle with
  | some p => reSearch p hay.data
  | none => false

/-- The card filter stage (lines 163-164): skipped for an empty needle;
null cards read as the empty string (fillna). -/
def card_stage (card_filter : String) (tbl : List Record) : List Record :=
  if card_filter = "" then tbl
  else tbl.filter (fun r => str_contains_ci card_filter (r.card.getD ""))

/-- The description search stage (lines 167-168). -/
def search_stage (search : String) (tbl : List Record) : List Record :=
  if search = "" then tbl
  else tbl.filter (fun r => str_contains_ci search (r.description.getD ""))

/-- Ascending comparison used by sort_values on the date column. -/
def recLe (a b : Record) : Prop := strLeB a.date_gregorian b.date_gregorian = true

instance : DecidableRel recLe := fun a b => by unfold recLe; infer_instance

instance : IsTotal Record recLe :=
  ⟨fun a b => charListLe_total a.date_gregorian.data b.date_gregorian.data⟩

instance : IsTrans Record recLe :=
  ⟨fun _ _ _ h1 h2 => charListLe_trans _ _ _ h1 h2⟩

/-- sort_values("date_gregorian", ascending=False) (lines 171-172):
pandas nargsort reverses the values and the index array, argsorts the
reversed values ascending with the default quicksort kind, and then
reverses the resulting indexer again — the stable-descending double
reversal — so rows with equal keys keep their original relative order.
numpy's quicksort runs as a stable insertion sort on slices of at most
16 elements, which List.insertionSort models within that regime. -/
def sort_stage (tbl : List Record) : List Record :=
  if tbl.isEmpty then tbl
  else (List.insertionSort recLe tbl.reverse).reverse

/-- The whole filter-and-sort pipeline, with the warning flag of the
date stage. -/
def run_query (df : List Record) (start_j end_j card_filter search : String) :
    List Record × Bool :=
  ((sort_stage (search_stage search (card_stage card_filter
      (date_filter df start_j end_j).1))), (date_filter df start_j end_j).2)

/-- total_spent (line 177): int of the amount sum, 0 when empty. -/
def total_spent (fl : List Record) : Int :=
  ratTrunc (if fl.isEmpty then 0 else (fl.map Record.amount).sum)

/-- The groupby key (line 199): the card column with the empty string
replaced by the sentinel label; a null card has no key because pandas
groupby drops NaN keys. -/
def sentinel : String := "— مشخص نشده —"

def cardKey (c : Option String) : Option String :=
  match c with
  | none => none
  | some s => some (if s = "" then sentinel else s)

/-- card_summary (lines 198-200): group the filtered rows by the
replaced card key (groupby sorts the keys and drops null keys) and sum
the amounts per key. -/
def card_summary (fl : List Record) : List (String × Rat) :=
  ((List.insertionSort (fun a b => strLeB a b = true)
      (fl.filterMap (fun r => cardKey r.card)).dedup).map
    (fun k => (k, ((fl.filter (fun r => cardKey r.card == some k)).map Record.amount).sum)))

/-! ## Claim theorems -/

section Claims

attribute [local semireducible] Rat.mul Rat.add Rat.sub Rat.inv

/-- Claim C3 (code bug): the spec says an imported row with a
non-numeric amount is treated as 0 and succeeds, and the code's
`int(pd.to_numeric(r["amount"], errors="coerce") or 0)` shows the same
intent, but NaN is truthy in Python, so int() is applied to NaN and
raises, aborting the whole import; the table stays unchanged. -/
theorem C3_nonnumeric_amount_raises :
    buildImportRow "u0" ["date_jalali", "amount"]
      [Cell.str "1403-05-25", Cell.str "abc"] = .error .nanToInt ∧
    import_csv [] (fun _ => "u0") ⟨["date_jalali", "amount"],
      [[Cell.str "1403-05-25", Cell.str "abc"]]⟩ =
      ([], none, some .nanToInt) := by
  constructor
  · decide
  · decide

/-- An element of an equal-key class is inserted by the stable ordered
insert before every element of its class, so filtering the class
commutes with the insert. -/
theorem filter_orderedInsert_pos (p : Record → Bool) (k : String)
    (hp : ∀ r, p r = true → r.date_gregorian = k) (a : Record) (ha : p a = true) :
    ∀ L : List Record,
      (List.orderedInsert recLe a L).filter p = a :: L.filter p
  | [] => by
    show List.filter p [a] = a :: List.filter p []
    rw [List.filter_cons_of_pos ha]
  | b :: L2 => by
    simp only [List.orderedInsert]
    by_cases hab : recLe a b
    · rw [if_pos hab, List.filter_cons_of_pos ha]
    · rw [if_neg hab]
      have hb : p b = false := by
        cases hpb : p b with
        | false => rfl
        | true =>
          exfalso
          apply hab
          unfold recLe
          rw [hp a ha, hp b hpb]
          exact charListLe_refl _
      rw [List.filter_cons_of_neg (by simp [hb]),
        filter_orderedInsert_pos p k hp a ha L2,
        List.filter_cons_of_neg (by simp [hb])]

/-- Ordered insert of an element outside the filtered class leaves the
filtered sublist unchanged. -/
theorem filter_orderedInsert_neg (p : Record → Bool) (a : Record) (ha : p a = false) :
    ∀ L : List Record, (List.orderedInsert recLe a L).filter p = L.filter p
  | [] => by
    show List.filter p [a] = List.filter p []
    rw [List.filter_cons_of_neg (by simp [ha])]
  | b :: L2 => by
    simp only [List.orderedInsert]
    by_cases hab : recLe a b
    · rw [if_pos hab, List.filter_cons_of_neg (by simp [ha])]
    · rw [if_neg hab]
      cases hpb : p b with
      | true =>
        rw [List.filter_cons_of_pos hpb, filter_orderedInsert_neg p a ha L2,
          List.filter_cons_of_pos hpb]
      | false =>
        rw [List.filter_cons_of_neg (by simp [hpb]),
          filter_orderedInsert_neg p a ha L2,
          List.filter_cons_of_neg (by simp [hpb])]

/-- Stability of the ascending insertion sort on one key class: the
records of any single date keep their relative order. -/
theorem filter_insertionSort (p : Record → Bool) (k : String)
    (hp : ∀ r, p r = true → r.date_gregorian = k) :
    ∀ l : List Record, (List.insertionSort recLe l).filter p = l.filter p
  | [] => rfl
  | a :: l => by
    simp only [List.insertionSort]
    cases hpa : p a with
    | true =>
      rw [filter_orderedInsert_pos p k hp a hpa, filter_insertionSort p k hp l,
        List.filter_cons_of_pos hpa]
    | false =>
      rw [filter_orderedInsert_neg p a hpa, filter_insertionSort p k hp l,
        List.filter_cons_of_neg (by simp [hpa])]

/-- Claim C6 (confirmed): the query result is sorted by date_gregorian
descending, is a permutation of its input, and the sort is stable:
pandas reverses the rows before the stable ascending sort and reverses
the indexer after, so for any one date the records carrying it keep
their original relative order (stated as: filtering any equal-date
class commutes with the sort). -/
theorem C6_sort_descending (tbl : List Record) :
    List.Sorted (fun a b => recLe b a) (sort_stage tbl) ∧
    (sort_stage tbl).Perm tbl ∧
    (∀ (k : String) (p : Record → Bool), (∀ r, p r = true → r.date_gregorian = k) →
      (sort_stage tbl).filter p = tbl.filter p) := by
  unfold sort_stage
  by_cases he : tbl.isEmpty
  · rw [if_pos he]
    rcases tbl with _ | ⟨a, l⟩
    · exact ⟨List.sorted_nil, List.Perm.refl _, fun _ _ _ => rfl⟩
    · simp at he
  · rw [if_neg he]
    refine ⟨?_, ?_, ?_⟩
    · exact List.pairwise_reverse.mpr (List.sorted_insertionSort recLe tbl.reverse)
    · exact ((List.reverse_perm _).trans
        (List.perm_insertionSort recLe tbl.reverse)).trans (List.reverse_perm tbl)
    · intro k p hp
      rw [List.filter_reverse, filter_insertionSort p k hp, List.filter_reverse,
        List.reverse_reverse]

/-- Claim C6 witness: at a concrete two-record table with equal dates,
the result is sorted descending and the equal-date class keeps its
original order. -/
theorem C6_sort_descending_witness :
    List.Sorted (fun a b => recLe b a)
      (sort_stage [⟨"i1", "a", "2024-03-21", 50, none, none⟩,
                   ⟨"i2", "b", "2024-03-21", 70, none, none⟩]) ∧
    (sort_stage [⟨"i1", "a", "2024-03-21", 50, none, none⟩,
                 ⟨"i2", "b", "2024-03-21", 70, none, none⟩]).filter
        (fun r => r.date_gregorian == "2024-03-21") =
      [⟨"i1", "a", "2024-03-21", 50, none, none⟩,
       ⟨"i2", "b", "2024-03-21", 70, none, none⟩].filter
        (fun r => r.date_gregorian == "2024-03-21") :=
  ⟨(C6_sort_descending [⟨"i1", "a", "2024-03-21", 50, none, none⟩,
      ⟨"i2", "b", "2024-03-21", 70, none, none⟩]).1,
   (C6_sort_descending [⟨"i1", "a", "2024-03-21", 50, none, none⟩,
      ⟨"i2", "b", "2024-03-21", 70, none, none⟩]).2.2 "2024-03-21"
     (fun r => r.date_gregorian == "2024-03-21")
     (fun _r h => beq_iff_eq.mp h)⟩

end Claims

section Claims2

attribute [local semireducible] Rat.mul Rat.add Rat.sub Rat.inv

/-- Claim C8 witness: the round trip at a concrete valid Jalali date. -/
theorem C8_calendar_roundtrip_witness :
    parseIsoDate "1403-05-25" = some (1403, 5, 25) ∧ jalaliValid 1403 5 25 ∧
    ∃ g, jalali_to_gregorian "1403-05-25" = some g ∧
      gregorian_to_jalali g = "1403-05-25" :=
  ⟨by decide, by decide, C8_calendar_roundtrip "1403-05-25" 1403 5 25 (by decide) (by decide)⟩

/-- Claim C1 (confirmed): whenever the import handler reports an error
(a required column absent or any row failing), the in-memory table is
returned unchanged and nothing is persisted. -/
theorem C1_import_all_or_nothing (df : List Record) (ids : Nat → String)
    (imp : RawTable) (e : ImportError)
    (h : (import_csv df ids imp).2.2 = some e) :
    import_csv df ids imp = (df, none, some e) := by
  unfold import_csv at h ⊢
  split_ifs at h ⊢ with h1 h2
  · cases hr : importRows ids imp.cols imp.rows 0 with
    | error e2 =>
      rw [hr] at h
      exact congrArg (fun o => (df, (none : Option (List Record)), o))
        (h : some e2 = some e)
    | ok recs =>
      rw [hr] at h
      exact Option.noConfusion (h : (none : Option ImportError) = some e)
  · exact congrArg (fun o => (df, (none : Option (List Record)), o)) h
  · exact congrArg (fun o => (df, (none : Option (List Record)), o)) h

/-- Claim C1 witness: importing a table whose amount column is missing
leaves the empty table unchanged and persists nothing. -/
theorem C1_import_all_or_nothing_witness :
    (import_csv [] (fun _ => "u")
        ⟨["date_jalali"], [[Cell.str "1403-05-25"], [Cell.str "1403-05-26"]]⟩).2.2 =
      some (.missingColumn "amount") ∧
    import_csv [] (fun _ => "u")
        ⟨["date_jalali"], [[Cell.str "1403-05-25"], [Cell.str "1403-05-26"]]⟩ =
      ([], none, some (.missingColumn "amount")) :=
  ⟨by decide, C1_import_all_or_nothing [] (fun _ => "u")
    ⟨["date_jalali"], [[Cell.str "1403-05-25"], [Cell.str "1403-05-26"]]⟩
    (.missingColumn "amount") (by decide)⟩

/-- Claim C9 (confirmed): manual record construction rejects an empty
date with missingDate, then a non-positive amount with
nonPositiveAmount, then an unconvertible date with invalidDateFormat;
on success the built record carries the fresh id, the ISO Gregorian
date, the integer amount and the stripped description and card, and the
submit handler appends it to the table and persists, while on failure
the table is untouched and nothing is written. -/
theorem C9_build_validation (newId d : String) (amt : Int) (de ca : String) :
    (build newId "" amt de ca = .error .missingDate) ∧
    (d ≠ "" → amt ≤ 0 → build newId d amt de ca = .error .nonPositiveAmount) ∧
    (d ≠ "" → 0 < amt → jalali_to_gregorian d = none →
      build newId d amt de ca = .error .invalidDateFormat) ∧
    (∀ g, d ≠ "" → 0 < amt → jalali_to_gregorian d = some g →
      build newId d amt de ca =
        .ok ⟨newId, d, pyIsoOfTriple g, (amt : Rat), some (pyStrip de), some (pyStrip ca)⟩) ∧
    (∀ df e, build newId d amt de ca = .error e →
      add_expense df newId d amt de ca = (df, none, some e)) ∧
    (∀ df r, build newId d amt de ca = .ok r →
      add_expense df newId d amt de ca = (df ++ [r], some (df ++ [r]), none)) := by
  refine ⟨?_, ?_, ?_, ?_, ?_, ?_⟩
  · unfold build
    rw [if_pos rfl]
  · intro hd ha
    unfold build
    rw [if_neg hd, if_pos ha]
  · intro hd ha hg
    unfold build
    rw [if_neg hd, if_neg (by omega), hg]
  · intro g hd ha hg
    unfold build
    rw [if_neg hd, if_neg (by omega), hg]
  · intro df e hb
    unfold add_expense
    rw [hb]
  · intro df r hb
    unfold add_expense
    rw [hb]

/-- Claim C9 witness: a concrete successful submit. -/
theorem C9_build_validation_witness :
    build "u" "1403-05-25" 1000 " a " " c " =
      .ok ⟨"u", "1403-05-25", "2024-08-15", (1000 : Rat), some "a", some "c"⟩ ∧
    add_expense [] "u" "1403-05-25" 1000 " a " " c " =
      ([⟨"u", "1403-05-25", "2024-08-15", (1000 : Rat), some "a", some "c"⟩],
       some [⟨"u", "1403-05-25", "2024-08-15", (1000 : Rat), some "a", some "c"⟩],
       none) := by
  have h := C9_build_validation "u" "1403-05-25" 1000 " a " " c "
  have hb := h.2.2.2.1 (2024, 8, 15) (by decide) (by decide) (by decide)
  constructor
  · rw [hb]
    decide
  · rw [h.2.2.2.2.2 [] _ hb]
    decide

/-- Claim C4 counterexample: importing a row whose amount parses to a
negative number puts a record with a negative amount into the table, so
the non-negative-amount invariant is not preserved by import. -/
theorem C4_counterexample :
    (import_csv [] (fun _ => "u")
        ⟨["date_jalali", "amount"],
         [[Cell.str "1403-05-25", Cell.str "-5"]]⟩).1.map Record.amount =
      [(-5 : Rat)] := by
  decide

/-- Claim C4 (amended): manual entry builds only records with a
positive integer amount, and import builds only records with an integer
amount — but import does not guarantee the sign: a negative imported
amount is accepted as is (load likewise keeps any parsed numeric value,
coercing only non-numeric or missing amounts to 0). -/
theorem C4_amount_invariant (newId d : String) (amt : Int) (de ca : String) :
    (∀ r, build newId d amt de ca = .ok r → 0 < r.amount ∧ r.amount.den = 1) ∧
    (∀ cols row r, buildImportRow newId cols row = .ok r → r.amount.den = 1) := by
  constructor
  · intro r hb
    unfold build at hb
    split_ifs at hb with h1 h2
    cases hg : jalali_to_gregorian d with
    | none => rw [hg] at hb; cases hb
    | some g =>
      rw [hg] at hb
      cases hb
      refine ⟨show (0 : Rat) < (amt : Rat) from ?_, Rat.den_intCast amt⟩
      exact_mod_cast (by omega : (0 : Int) < amt)
  · intro cols row r hb
    simp only [buildImportRow] at hb
    cases hg : jalali_to_gregorian (pyStr (getCol cols row "date_jalali")) with
    | none => rw [hg] at hb; cases hb
    | some g =>
      rw [hg] at hb
      cases hq : to_numeric (getCol cols row "amount") with
      | none => rw [hq] at hb; cases hb
      | some q =>
        rw [hq] at hb
        cases hb
        exact Rat.den_intCast _

/-- Claim C4 witness: the amended invariant at a concrete build. -/
theorem C4_amount_invariant_witness :
    0 < (⟨"u", "1403-05-25", "2024-08-15", (5 : Rat), some "", some ""⟩ : Record).amount ∧
    (⟨"u", "1403-05-25", "2024-08-15", (5 : Rat), some "", some ""⟩ : Record).amount.den = 1 :=
  (C4_amount_invariant "u" "1403-05-25" 5 "" "").1 _ (by decide)

/-- Claim C7 counterexample: with an invalid start bound and a valid
end bound, the whole date block is skipped — the valid end bound is
dropped too (a record past the end date survives), not just the
offending bound. -/
theorem C7_counterexample :
    date_filter [⟨"i", "1403-01-01", "2030-01-01", 5, none, none⟩]
        "1403-13-01" "1403-01-05" =
      ([⟨"i", "1403-01-01", "2030-01-01", 5, none, none⟩], true) := by
  decide

/-- Claim C7 (amended): date filtering fails softly with a warning and
never hard-fails, but not bound-by-bound: a start-bound conversion
failure aborts the whole try block, dropping the end bound as well,
while an end-bound failure keeps the already-applied start bound; the
card and text filters always still run on the date stage's output. -/
theorem C7_date_filter_soft (tbl : List Record) (s e c q : String) :
    (s ≠ "" → jalali_to_gregorian s = none → date_filter tbl s e = (tbl, true)) ∧
    (∀ g, s ≠ "" → jalali_to_gregorian s = some g → e ≠ "" →
      jalali_to_gregorian e = none →
      date_filter tbl s e =
        (tbl.filter (fun r => strLeB (pyIsoOfTriple g) r.date_gregorian), true)) ∧
    (s = "" → e ≠ "" → jalali_to_gregorian e = none →
      date_filter tbl s e = (tbl, true)) ∧
    (∀ df, run_query df s e c q =
      ((sort_stage (search_stage q (card_stage c (date_filter df s e).1))),
       (date_filter df s e).2)) := by
  refine ⟨?_, ?_, ?_, fun df => rfl⟩
  · intro hs hgs
    unfold date_filter
    rw [if_neg hs, hgs]
  · intro g hs hgs he hge
    unfold date_filter
    rw [if_neg hs, hgs]
    simp only [if_neg he, hge]
  · intro hs he hge
    unfold date_filter
    rw [if_pos hs, if_neg he, hge]

/-- Claim C7 witness: the amended behaviour at a concrete failing start
bound. -/
theorem C7_date_filter_soft_witness :
    date_filter [⟨"i", "1403-01-01", "2030-01-01", 5, none, none⟩]
        "1403-13-01" "" =
      ([⟨"i", "1403-01-01", "2030-01-01", 5, none, none⟩], true) :=
  (C7_date_filter_soft [⟨"i", "1403-01-01", "2030-01-01", 5, none, none⟩]
    "1403-13-01" "" "" "").1 (by decide) (by decide)

end Claims2

section Claims3

attribute [local semireducible] Rat.mul Rat.add Rat.sub Rat.inv

/-- Boolean prefix test on character lists. -/
def listPrefixB : List Char → List Char → Bool
  | [], _ => true
  | _ :: _, [] => false
  | a :: as, b :: bs => a == b && listPrefixB as bs

/-- Boolean contiguous-substring test on character lists. -/
def listInfixB (l : List Char) : List Char → Bool
  | [] => l.isEmpty
  | c :: cs => listPrefixB l (c :: cs) || listInfixB l cs

theorem listPrefixB_iff : ∀ l cs : List Char, listPrefixB l cs = true ↔ l <+: cs
  | [], cs => by simp [listPrefixB]
  | a :: as, [] => by simp [listPrefixB]
  | a :: as, b :: bs => by
    simp only [listPrefixB, Bool.and_eq_true, beq_iff_eq, List.cons_prefix_cons]
    exact and_congr_right fun _ => listPrefixB_iff as bs

theorem listInfixB_iff (l : List Char) : ∀ cs : List Char, listInfixB l cs = true ↔ l <:+: cs
  | [] => by
    simp only [listInfixB, List.isEmpty_iff, List.infix_nil]
  | c :: cs => by
    simp only [listInfixB, Bool.or_eq_true, List.infix_cons_iff]
    exact or_congr (listPrefixB_iff l (c :: cs)) (listInfixB_iff l cs)

/-- Case-insensitive substring containment, as the spec words it. -/
def substring_ci (needle hay : String) : Bool :=
  listInfixB (needle.data.map Char.toLower) (hay.data.map Char.toLower)

theorem matchHere_lit : ∀ (l cs : List Char),
    matchHere (l.map RElem.lit) cs =
      listPrefixB (l.map Char.toLower) (cs.map Char.toLower)
  | [], _ => rfl
  | _ :: _, [] => rfl
  | a :: as, c :: cs => by
    simp only [List.map_cons, matchHere, elemMatch, listPrefixB]
    rw [matchHere_lit as cs]

theorem reSearch_lit (l : List Char) : ∀ cs : List Char,
    reSearch (l.map RElem.lit) cs =
      listInfixB (l.map Char.toLower) (cs.map Char.toLower)
  | [] => by
    cases l with
    | nil => rfl
    | cons a as => rfl
  | c :: cs => by
    simp only [List.map_cons, reSearch, listInfixB]
    rw [matchHere_lit l (c :: cs), reSearch_lit l cs]
    rfl

/-- Claim C5 counterexample: pandas str.contains compiles the needle as
a regular expression, so the needle "a.c" matches the card "abc" (the
dot is a wildcard) although it is not a substring of it — the record
passes the filter against the substring reading. -/
theorem C5_counterexample :
    substring_ci "a.c" "abc" = false ∧
    card_stage "a.c" [⟨"i", "d", "g", 5, none, some "abc"⟩] =
      [⟨"i", "d", "g", 5, none, some "abc"⟩] := by
  constructor
  · decide
  · decide

/-- Claim C5 (amended): for a non-empty needle the card/description
filters keep exactly the records whose field (null read as the empty
string) matches the needle under str.contains semantics — which is
regular-expression search with IGNORECASE, not plain substring search;
the two coincide exactly when the needle has no regex metacharacter
(in the modelled fragment: when it compiles to an all-literal
pattern). -/
theorem C5_contains_filter (needle hay : String) (tbl : List Record) (r : Record) :
    (needle ≠ "" →
      (r ∈ card_stage needle tbl ↔
        r ∈ tbl ∧ str_contains_ci needle (r.card.getD "") = true)) ∧
    (needle ≠ "" →
      (r ∈ search_stage needle tbl ↔
        r ∈ tbl ∧ str_contains_ci needle (r.description.getD "") = true)) ∧
    (toPattern needle = some (needle.data.map RElem.lit) →
      str_contains_ci needle hay = substring_ci needle hay) := by
  refine ⟨?_, ?_, ?_⟩
  · intro hne
    unfold card_stage
    rw [if_neg hne]
    exact List.mem_filter
  · intro hne
    unfold search_stage
    rw [if_neg hne]
    exact List.mem_filter
  · intro hm
    unfold str_contains_ci substring_ci
    rw [hm]
    exact reSearch_lit _ _

/-- Claim C5 witness: a literal needle filters by case-insensitive
substring at a concrete table. -/
theorem C5_contains_filter_witness :
    str_contains_ci "ab" "xAby" = substring_ci "ab" "xAby" ∧
    ((⟨"i", "d", "g", 5, none, some "xAby"⟩ : Record) ∈
        card_stage "ab" [⟨"i", "d", "g", 5, none, some "xAby"⟩] ↔
      (⟨"i", "d", "g", 5, none, some "xAby"⟩ : Record) ∈
          [(⟨"i", "d", "g", 5, none, some "xAby"⟩ : Record)] ∧
        str_contains_ci "ab"
          ((⟨"i", "d", "g", 5, none, some "xAby"⟩ : Record).card.getD "") = true) :=
  ⟨(C5_contains_filter "ab" "xAby" [] ⟨"i", "d", "g", 5, none, some "xAby"⟩).2.2
      (by decide),
   (C5_contains_filter "ab" "xAby" [⟨"i", "d", "g", 5, none, some "xAby"⟩]
      ⟨"i", "d", "g", 5, none, some "xAby"⟩).1 (by decide)⟩

end Claims3

section Claims4

attribute [local semireducible] Rat.mul Rat.add Rat.sub Rat.inv

/-- Whether a record's groupby key falls in the key set K. -/
def keyOfB (K : List String) (r : Record) : Bool :=
  match cardKey r.card with
  | some s => K.contains s
  | none => false

theorem keyOfB_nil (r : Record) : keyOfB [] r = false := by
  unfold keyOfB
  cases cardKey r.card with
  | none => rfl
  | some s => rfl

theorem keyOfB_cons (k : String) (K : List String) (r : Record) :
    keyOfB (k :: K) r = ((cardKey r.card == some k) || keyOfB K r) := by
  unfold keyOfB
  cases hc : cardKey r.card with
  | none => rfl
  | some s =>
    show (k :: K).contains s = ((some s == some k) || K.contains s)
    rw [List.contains_cons]
    rfl

theorem map_snd_map_pair (g : String → Rat) : ∀ L : List String,
    ((L.map (fun k => (k, g k))).map Prod.snd) = L.map g
  | [] => rfl
  | a :: l => by
    simp only [List.map_cons]
    rw [map_snd_map_pair g l]

theorem amounts_sum_filter_or (p q : Record → Bool)
    (hdisj : ∀ r, ¬(p r = true ∧ q r = true)) :
    ∀ l : List Record,
      ((l.filter (fun r => p r || q r)).map Record.amount).sum =
        ((l.filter p).map Record.amount).sum +
          ((l.filter q).map Record.amount).sum
  | [] => by simp
  | a :: l => by
    have ih := amounts_sum_filter_or p q hdisj l
    cases hp : p a <;> cases hq : q a
    · rw [List.filter_cons_of_neg (by simp [hp, hq]),
        List.filter_cons_of_neg (by simp [hp]),
        List.filter_cons_of_neg (by simp [hq])]
      exact ih
    · rw [List.filter_cons_of_pos (by simp [hp, hq]),
        List.filter_cons_of_neg (by simp [hp]),
        List.filter_cons_of_pos (by simp [hq]),
        List.map_cons, List.sum_cons, List.map_cons, List.sum_cons, ih]
      ring
    · rw [List.filter_cons_of_pos (by simp [hp, hq]),
        List.filter_cons_of_pos (by simp [hp]),
        List.filter_cons_of_neg (by simp [hq]),
        List.map_cons, List.sum_cons, List.map_cons, List.sum_cons, ih]
      ring
    · exact absurd ⟨hp, hq⟩ (hdisj a)

theorem groupsum_eq (l : List Record) : ∀ K : List String, K.Nodup →
    ((K.map (fun k =>
        ((l.filter (fun r => cardKey r.card == some k)).map Record.amount).sum)).sum) =
      ((l.filter (keyOfB K)).map Record.amount).sum
  | [], _ => by
    rw [List.filter_congr (fun r _ => keyOfB_nil r)]
    simp
  | k0 :: K, hnd => by
    have hk0 : k0 ∉ K := (List.nodup_cons.mp hnd).1
    have ih := groupsum_eq l K (List.nodup_cons.mp hnd).2
    have hdisj : ∀ r, ¬((cardKey r.card == some k0) = true ∧ keyOfB K r = true) := by
      intro r ⟨h1, h2⟩
      have hcard : cardKey r.card = some k0 := beq_iff_eq.mp h1
      unfold keyOfB at h2
      rw [hcard] at h2
      exact hk0 (List.elem_iff.mp h2)
    have hsum := amounts_sum_filter_or (fun r => cardKey r.card == some k0)
      (keyOfB K) hdisj l
    rw [List.map_cons, List.sum_cons, ih,
      List.filter_congr (fun r _ => keyOfB_cons k0 K r), hsum]

/-- Claim C2 counterexample: a filtered result with a null-card record
(amount 50), a regular card (amount 100) and an empty-string card
(amount 7): groupby drops the null key, so the per-card totals sum to
107 while the total is 157. -/
theorem C2_counterexample :
    ((card_summary
        [⟨"i1", "a", "g", 100, none, some "x"⟩,
         ⟨"i2", "a", "g", 50, none, none⟩,
         ⟨"i3", "a", "g", 7, none, some ""⟩]).map Prod.snd).sum = (107 : Rat) ∧
    total_spent
        [⟨"i1", "a", "g", 100, none, some "x"⟩,
         ⟨"i2", "a", "g", 50, none, none⟩,
         ⟨"i3", "a", "g", 7, none, some ""⟩] = 157 := by
  constructor
  · decide
  · decide

/-- Claim C2 (amended): the per-card aggregation buckets the
empty-string card under the sentinel label, but pandas groupby drops
null (NaN) keys entirely, so records with a null card are missing from
the summary, and the per-card totals sum to the total of only the
records whose card is non-null — not to the total of the whole
filtered result. -/
theorem C2_card_aggregation (fl : List Record) :
    ((card_summary fl).map Prod.snd).sum =
      ((fl.filter (fun r => r.card.isSome)).map Record.amount).sum ∧
    (∀ r ∈ fl, r.card = some "" → cardKey r.card = some sentinel) ∧
    (∀ r ∈ fl, r.card = none → cardKey r.card = none) := by
  refine ⟨?_, ?_, ?_⟩
  · have hpt : ∀ r ∈ fl,
        keyOfB ((fl.filterMap (fun r => cardKey r.card)).dedup) r =
          r.card.isSome := by
      intro r hr
      cases hc : r.card with
      | none =>
        have h1 : cardKey r.card = none := by
          unfold cardKey
          rw [hc]
        unfold keyOfB
        rw [h1]
        rfl
      | some s =>
        have hck : cardKey r.card = some (if s = "" then sentinel else s) := by
          unfold cardKey
          rw [hc]
        have hmem : (if s = "" then sentinel else s) ∈
            (fl.filterMap (fun r => cardKey r.card)).dedup :=
          List.mem_dedup.mpr (List.mem_filterMap.mpr ⟨r, hr, hck⟩)
        unfold keyOfB
        rw [hck]
        exact List.elem_iff.mpr hmem
    unfold card_summary
    rw [map_snd_map_pair]
    have hsum := ((List.perm_insertionSort (fun a b => strLeB a b = true)
        ((fl.filterMap (fun r => cardKey r.card)).dedup)).map
      (fun k =>
        ((fl.filter (fun r => cardKey r.card == some k)).map Record.amount).sum)).sum_eq
    rw [hsum, groupsum_eq fl _ (List.nodup_dedup _), List.filter_congr hpt]
  · intro r _ hcard
    unfold cardKey
    rw [hcard]
    rfl
  · intro r _ hcard
    unfold cardKey
    rw [hcard]

/-- Claim C2 witness: the amended aggregation at a concrete filtered
result. -/
theorem C2_card_aggregation_witness :
    ((card_summary
        [⟨"i1", "a", "g", 100, none, some "x"⟩,
         ⟨"i2", "a", "g", 50, none, none⟩,
         ⟨"i3", "a", "g", 7, none, some ""⟩]).map Prod.snd).sum =
      (([⟨"i1", "a", "g", 100, none, some "x"⟩,
         ⟨"i2", "a", "g", 50, none, none⟩,
         ⟨"i3", "a", "g", 7, none, some ""⟩].filter
            (fun r => r.card.isSome)).map Record.amount).sum ∧
    cardKey (⟨"i3", "a", "g", 7, none, some ""⟩ : Record).card = some sentinel :=
  ⟨(C2_card_aggregation
      [⟨"i1", "a", "g", 100, none, some "x"⟩,
       ⟨"i2", "a", "g", 50, none, none⟩,
       ⟨"i3", "a", "g", 7, none, some ""⟩]).1,
   (C2_card_aggregation
      [⟨"i1", "a", "g", 100, none, some "x"⟩,
       ⟨"i2", "a", "g", 50, none, none⟩,
       ⟨"i3", "a", "g", 7, none, some ""⟩]).2.1
     ⟨"i3", "a", "g", 7, none, some ""⟩ (by decide) rfl⟩

end Claims4

section Claims5

/-- The spec's wording of one normalized row: exactly the expected
columns in order, each read from the original row (null when the
column is missing), with the amount coerced to numeric and a
non-numeric or missing amount replaced by 0. -/
def read_data_spec_row (cols : List String) (row : List Cell) : List Cell :=
  expected.map (fun c =>
    if c = "amount" then Cell.num ((to_numeric (getCol cols row "amount")).getD 0)
    else getCol cols row c)

theorem getCol_row_nil : ∀ (cols : List String) (name : String),
    getCol cols [] name = Cell.null
  | [], _ => rfl
  | c :: cs, name => by
    simp only [getCol]
    split_ifs
    · rfl
    · exact getCol_row_nil cs name

theorem getCol_pad : ∀ (ms : List String) (name : String),
    getCol ms (ms.map fun _ => Cell.null) name = Cell.null
  | [], _ => rfl
  | c :: cs, name => by
    simp only [List.map_cons, getCol]
    split_ifs
    · rfl
    · exact getCol_pad cs name

theorem getCol_append_pad :
    ∀ (cols : List String) (row : List Cell) (ms : List String) (name : String),
      row.length = cols.length →
      getCol (cols ++ ms) (row ++ ms.map fun _ => Cell.null) name =
        getCol cols row name
  | [], [], ms, name, _ => by
    simp only [List.nil_append]
    exact getCol_pad ms name
  | [], x :: xs, ms, name, hlen => by cases hlen
  | c :: cs, [], ms, name, hlen => by cases hlen
  | c :: cs, x :: xs, ms, name, hlen => by
    simp only [List.cons_append, getCol]
    split_ifs
    · rfl
    · exact getCol_append_pad cs xs ms name (by simpa using hlen)

theorem getCol_setCol_self :
    ∀ (cols : List String) (row : List Cell) (name : String) (v : Cell),
      row.length = cols.length → name ∈ cols →
      getCol cols (setCol cols row name v) name = v
  | [], _, name, v, _, hmem => absurd hmem (List.not_mem_nil name)
  | c :: cs, [], name, v, hlen, _ => by cases hlen
  | c :: cs, x :: xs, name, v, hlen, hmem => by
    simp only [setCol]
    by_cases hc : c = name
    · rw [if_pos hc]
      simp only [getCol]
      rw [if_pos hc]
      rfl
    · rw [if_neg hc]
      simp only [getCol]
      rw [if_neg hc]
      exact getCol_setCol_self cs xs name v (by simpa using hlen)
        (by rcases List.mem_cons.mp hmem with h | h
            · exact absurd h.symm hc
            · exact h)

theorem getCol_setCol_ne :
    ∀ (cols : List String) (row : List Cell) (name name' : String) (v : Cell),
      name ≠ name' →
      getCol cols (setCol cols row name' v) name = getCol cols row name
  | [], row, _, _, _, _ => rfl
  | c :: cs, [], name, name', v, h => by
    simp only [setCol]
  | c :: cs, x :: xs, name, name', v, h => by
    simp only [setCol]
    by_cases hc : c = name'
    · rw [if_pos hc]
      simp only [getCol]
      have hcn : ¬ c = name := fun he => h (he.symm.trans hc)
      rw [if_neg hcn, if_neg hcn]
      rfl
    · rw [if_neg hc]
      simp only [getCol]
      by_cases hcn : c = name
      · rw [if_pos hcn, if_pos hcn]
        rfl
      · rw [if_neg hcn, if_neg hcn]
        exact getCol_setCol_ne cs xs name name' v h

/-- Claim C10 (confirmed): load returns the empty table with the fixed
schema when there is no file, and otherwise a table with exactly the
expected columns in order whose every row is the source row normalized:
missing columns read as null, extra columns dropped, and the amount
coerced to numeric with non-numeric or missing values replaced by 0
(rows of a parsed CSV are rectangular). -/
theorem C10_read_data (f : Option RawTable) :
    (read_data f).cols = expected ∧
    read_data none = ⟨expected, []⟩ ∧
    (∀ t, f = some t → (∀ row ∈ t.rows, row.length = t.cols.length) →
      (read_data f).rows = t.rows.map (read_data_spec_row t.cols)) := by
  refine ⟨?_, rfl, ?_⟩
  · cases f <;> rfl
  · intro t hf hrect
    subst hf
    unfold read_data
    simp only [List.map_map]
    refine List.map_congr_left (fun row hrow => ?_)
    simp only [Function.comp]
    have hlen1 : (row ++ (expected.filter
        (fun c => ¬ t.cols.contains c)).map (fun _ => Cell.null)).length =
        (t.cols ++ expected.filter (fun c => ¬ t.cols.contains c)).length := by
      simp [hrect row hrow]
    have hamt : "amount" ∈ t.cols ++ expected.filter (fun c => ¬ t.cols.contains c) := by
      by_cases hm : "amount" ∈ t.cols
      · exact List.mem_append_left _ hm
      · refine List.mem_append_right _ (List.mem_filter.mpr ⟨by decide, ?_⟩)
        simp only [decide_eq_true_eq]
        intro hcon
        exact hm (List.elem_iff.mp hcon)
    unfold read_data_spec_row
    refine List.map_congr_left (fun c _ => ?_)
    by_cases hc : c = "amount"
    · subst hc
      rw [if_pos rfl,
        getCol_setCol_self _ _ _ _ hlen1 hamt,
        getCol_append_pad t.cols row _ "amount" (hrect row hrow)]
    · rw [if_neg hc,
        getCol_setCol_ne _ _ _ _ _ hc,
        getCol_append_pad t.cols row _ c (hrect row hrow)]

/-- Claim C10 witness: a concrete table with an extra column, missing
columns and a non-numeric amount is normalized to the fixed schema. -/
theorem C10_read_data_witness :
    (read_data (some ⟨["extra", "amount", "id"],
        [[Cell.str "x", Cell.str "abc", Cell.str "i1"],
         [Cell.str "y", Cell.num 5, Cell.str "i2"]]⟩)).rows =
      [[Cell.str "x", Cell.str "abc", Cell.str "i1"],
       [Cell.str "y", Cell.num 5, Cell.str "i2"]].map
        (read_data_spec_row ["extra", "amount", "id"]) :=
  (C10_read_data (some ⟨["extra", "amount", "id"],
      [[Cell.str "x", Cell.str "abc", Cell.str "i1"],
       [Cell.str "y", Cell.num 5, Cell.str "i2"]]⟩)).2.2
    ⟨["extra", "amount", "id"],
      [[Cell.str "x", Cell.str "abc", Cell.str "i1"],
       [Cell.str "y", Cell.num 5, Cell.str "i2"]]⟩ rfl (by decide)

end Claims5

end Kharge
